import Mathlib

/-!
# Gateway lifecycle orchestrator: a verification development

A shallow embedding of the orchestration logic of the gateway desktop
application (`src/main.js` and `src/actions/*.js`).  External collaborators
(the filesystem, the HTTPS download, the digest primitive, the container
runtime CLI) are modelled as explicit state or as explicit outcome
parameters; every callback invocation is recorded as a value.
-/

namespace GatewayExe

/-! ## Filesystem -/

/-- Raw file content. -/
abbrev Bytes := List UInt8

/-- A filesystem maps a path to the content stored there, if any.  The
parameter is the view of the content: `Bytes` for `readFileSync(p)` and
`String` for `readFileSync(p, 'utf8')`. -/
abbrev FileSystem (α : Type) := String → Option α

/-- The module level path constants of `main.js` and
`gatewayInitActions.js`; `tempFilePath` is the local constant of
`downloadComposeFile`, `path.join(os.tmpdir(), 'docker-compose.yaml')`. -/
structure Paths where
  composeFilePath : String
  envFilePath : String
  tempFilePath : String

/-- Errors thrown by the synchronous `fs` calls. -/
inductive FsError where
  | enoent (path : String)
  deriving DecidableEq, Repr

/-- The call `fs.existsSync(p)`. -/
def existsSync {α : Type} (fs : FileSystem α) (p : String) : Bool :=
  (fs p).isSome

/-- The call `fs.readFileSync(p)`: throws when the file is missing. -/
def readFileSync {α : Type} (fs : FileSystem α) (p : String) : Except FsError α :=
  match fs p with
  | some c => .ok c
  | none => .error (.enoent p)

/-- The call `fs.writeFileSync(p, data)`: creates or replaces the file. -/
def writeFileSync {α : Type} (fs : FileSystem α) (p : String) (data : α) : FileSystem α :=
  fun q => if q = p then some data else fs q

/-- The call `fs.unlink(p, callback)`: removes the file, errors are ignored. -/
def unlink {α : Type} (fs : FileSystem α) (p : String) : FileSystem α :=
  fun q => if q = p then none else fs q

/-- The call `fs.renameSync(src, dst)`: throws when `src` is missing, otherwise the
content of `src` is found at `dst` and `src` is gone (renaming a file onto
itself changes nothing). -/
def renameSync {α : Type} (fs : FileSystem α) (src dst : String) :
    Except FsError (FileSystem α) :=
  match fs src with
  | none => .error (.enoent src)
  | some c => .ok (fun q => if q = dst then some c else if q = src then none else fs q)

/-! ## Manifest synchronisation (`gatewayInitActions.js`) -/

/-- The arguments with which a `downloadComposeFile` callback is invoked:
`callback(false)`, `callback(true, false)` or
`callback(true, true, newFilePath)`. -/
inductive ComposeCallback where
  | args1 (downloadSuccess : Bool)
  | args2 (downloadSuccess needsUpdate : Bool)
  | args3 (downloadSuccess needsUpdate : Bool) (newFilePath : String)
  deriving DecidableEq, Repr

/-- The function `compareComposeFiles(newFilePath, callback)`.  The digest primitive
`crypto.createHash('sha256').update(·).digest('hex')` is the parameter
`sha256`. -/
def compareComposeFiles (sha256 : Bytes → String) (P : Paths)
    (newFilePath : String) (fs : FileSystem Bytes) :
    Except FsError (FileSystem Bytes × ComposeCallback) :=
  if existsSync fs P.composeFilePath then do
    let oldFileHash := sha256 (← readFileSync fs P.composeFilePath)
    let newFileHash := sha256 (← readFileSync fs newFilePath)
    if oldFileHash = newFileHash then
      pure (fs, .args2 true false)
    else
      pure (fs, .args3 true true newFilePath)
  else do
    let fs1 ← renameSync fs newFilePath P.composeFilePath
    pure (fs1, .args2 true false)

/-- What `https.get(composeFileUrl, …)` delivers: a response with a status
code and a body, or a transport error. -/
inductive HttpOutcome where
  | response (statusCode : Nat) (body : Bytes)
  | error (message : String)
  deriving DecidableEq, Repr

/-- The function `downloadComposeFile(callback)`.  `fs.createWriteStream(tempFilePath)`
creates the temporary file empty; a 200 response is piped into it and
`compareComposeFiles` runs when the stream has finished; any other status
calls back with `false`; a transport error unlinks the temporary file and
calls back with `false`. -/
def downloadComposeFile (sha256 : Bytes → String) (P : Paths)
    (net : HttpOutcome) (fs : FileSystem Bytes) :
    Except FsError (FileSystem Bytes × ComposeCallback) :=
  let fs0 := writeFileSync fs P.tempFilePath []
  match net with
  | .response statusCode body =>
    if statusCode = 200 then
      compareComposeFiles sha256 P P.tempFilePath (writeFileSync fs0 P.tempFilePath body)
    else
      pure (fs0, .args1 false)
  | .error _ => pure (unlink fs0 P.tempFilePath, .args1 false)

/-- The `'user-confirmation'` handler of `main.js`: on `confirmed` the new
file is renamed over the local manifest and `startDockerSetup` is started.
The second component tells whether `startDockerSetup` was started. -/
def userConfirmation (P : Paths) (confirmed : Bool) (newFilePath : String)
    (fs : FileSystem Bytes) : Except FsError (FileSystem Bytes × Bool) :=
  if confirmed then do
    let fs1 ← renameSync fs newFilePath P.composeFilePath
    pure (fs1, true)
  else
    pure (fs, false)

/-! ## JavaScript string primitives -/

/-- The test `s.includes(pat)` on the characters of the strings: `pat` occurs in `s`
as a contiguous run. -/
def includesChars (pat : List Char) : List Char → Bool
  | [] => pat.isEmpty
  | c :: cs => pat.isPrefixOf (c :: cs) || includesChars pat cs

/-- The test `s.includes(pat)`. -/
def jsIncludes (s pat : String) : Bool :=
  includesChars pat.data s.data

/-- The text `xs.join(sep)` for an array of strings. -/
def jsJoin (sep : String) : List String → String
  | [] => ""
  | [x] => x
  | x :: y :: rest => x ++ sep ++ jsJoin sep (y :: rest)

/-! ## Reconciliation tick (`main.js`, the `setInterval` callback) -/

/-- One record of the container listing, as built by
`const [name, status] = line.split(': ')`: `status` is `undefined` (here
`none`) when the line has no delimiter. -/
structure Container where
  name : String
  status : Option String
  deriving DecidableEq, Repr

/-- A message handed to `win.webContents.send(channel, payload)`. -/
structure Event where
  channel : String
  payload : String
  deriving DecidableEq, Repr

/-- The error raised when a method is called on `undefined`. -/
inductive JsError where
  | typeError (message : String)
  deriving DecidableEq, Repr

/-- The test `container.status.includes(marker)`: a `TypeError` when the status is
`undefined`. -/
def statusIncludes (c : Container) (marker : String) : Except JsError Bool :=
  match c.status with
  | some s => .ok (jsIncludes s marker)
  | none => .error (.typeError "Cannot read properties of undefined (reading includes)")

/-- The method `xs.every(p)`: stops at the first element on which `p` is false. -/
def jsEvery {α : Type} (p : α → Except JsError Bool) : List α → Except JsError Bool
  | [] => .ok true
  | x :: xs => do
    if (← p x) then jsEvery p xs else pure false

/-- The method `xs.filter(p)`: visits every element. -/
def jsFilter {α : Type} (p : α → Except JsError Bool) : List α → Except JsError (List α)
  | [] => .ok []
  | x :: xs => do
    let keep ← p x
    let rest ← jsFilter p xs
    pure (if keep then x :: rest else rest)

/-- The template text of one container in a log line; an `undefined`
status is rendered as the text `undefined`. -/
def containerLine (c : Container) : String :=
  c.name ++ ": " ++ (c.status.getD "undefined")

/-- The test of `allStopped`:
`container.status.includes('Exited') || container.status.includes('Created')`. -/
def stoppedTest (c : Container) : Except JsError Bool := do
  if (← statusIncludes c "Exited") then pure true else statusIncludes c "Created"

/-- The body of `checkDockerContainers((success, containers) => …)` in the
periodic check, on the branch `success = true`: the events sent to the
window, in order, or the exception that escapes the callback. -/
def reconcileTick (containers : List Container) : Except JsError (List Event) := do
  let allStopped ← jsEvery stoppedTest containers
  let allRunning := (← jsFilter (fun c => statusIncludes c "Up") containers).length == 4
  let buttons : List Event :=
    if containers.length == 0 || allStopped then [⟨"update-buttons", "start"⟩]
    else if allRunning then [⟨"update-buttons", "stop"⟩]
    else []
  pure (buttons ++ [⟨"docker-logs",
    "Periodic check - Containers: " ++ jsJoin "\n" (containers.map containerLine)⟩])

/-- The events a tick has sent: none when the callback was left by an
exception before the first `send`. -/
def emitted (r : Except JsError (List Event)) : List Event :=
  match r with
  | .ok es => es
  | .error _ => []

/-- The `'update-buttons'` events among a list of events. -/
def buttonEvents (es : List Event) : List Event :=
  es.filter (fun e => e.channel == "update-buttons")

/-! ## Environment file (`main.js` `'load-wallet'`, `saveEnv`) -/

/-- The characters the pattern `.` does not match (no `s` flag): the
ECMAScript line terminators. -/
def isLineTerminator (c : Char) : Bool :=
  c == '\n' || c == '\r' || c == Char.ofNat 0x2028 || c == Char.ofNat 0x2029

/-- The operation `GetSubstitution` of ECMAScript for a pattern without capture groups:
in the replacement text `$$` stands for `$`, `$&` for the matched text,
`$` followed by a backquote for the text before the match and `$` followed
by a quote for the text after it; every other character, a `$` before a
digit or `<` included, stands for itself. -/
def getSubstitution (matched before after : List Char) : List Char → List Char
  | [] => []
  | '$' :: '$' :: rest => '$' :: getSubstitution matched before after rest
  | '$' :: '&' :: rest => matched ++ getSubstitution matched before after rest
  | '$' :: '\x60' :: rest => before ++ getSubstitution matched before after rest
  | '$' :: '\x27' :: rest => after ++ getSubstitution matched before after rest
  | c :: rest => c :: getSubstitution matched before after rest

/-- The literal part of the pattern `/OBSERVER_WALLET=.*/g`. -/
def observerWalletKey : List Char := "OBSERVER_WALLET=".data

/-- The scan of `str.replace(/OBSERVER_WALLET=.*/g, replacement)`: `before`
is the part of the subject already scanned, `s` the part still to scan.
At a position where the literal matches, `.*` takes every character up to
the next line terminator, the substitution is emitted and the scan goes on
behind the match; elsewhere one character is copied.  Every step consumes
at least one character, so `fuel` above the length of `s` is never used up. -/
def replaceObserverWalletFrom (replacement : List Char) :
    Nat → List Char → List Char → List Char
  | 0, _, s => s
  | _ + 1, _, [] => []
  | fuel + 1, before, c :: cs =>
    if observerWalletKey.isPrefixOf (c :: cs) then
      let afterKey := (c :: cs).drop observerWalletKey.length
      let tail := afterKey.takeWhile (fun x => !isLineTerminator x)
      let rest := afterKey.dropWhile (fun x => !isLineTerminator x)
      let matched := observerWalletKey ++ tail
      getSubstitution matched before rest replacement
        ++ replaceObserverWalletFrom replacement fuel (before ++ matched) rest
    else
      c :: replaceObserverWalletFrom replacement fuel (before ++ [c]) cs

/-- The call `envContent.replace(/OBSERVER_WALLET=.*/g, replacement)`. -/
def replaceObserverWallet (envContent replacement : String) : String :=
  ⟨replaceObserverWalletFrom replacement.data (envContent.length + 1) [] envContent.data⟩

/-- The environment text computed by the `'load-wallet'` handler from the
text read (`''` when the file is missing) and the wallet address. -/
def upsertObserverWallet (envContent address : String) : String :=
  if jsIncludes envContent "OBSERVER_WALLET" then
    replaceObserverWallet envContent ("OBSERVER_WALLET=" ++ address)
  else
    envContent ++ "\nOBSERVER_WALLET=" ++ address

/-- The environment file part of the `'load-wallet'` handler: read the file
if it exists, compute the new text, write it back. -/
def loadWalletEnv (P : Paths) (address : String) (fs : FileSystem String) :
    FileSystem String :=
  let envContent := if existsSync fs P.envFilePath then (fs P.envFilePath).getD "" else ""
  writeFileSync fs P.envFilePath (upsertObserverWallet envContent address)

/-- The lines of a text: the pieces between line feeds. -/
def linesOfChars : List Char → List (List Char)
  | [] => [[]]
  | c :: cs =>
    if c = '\n' then [] :: linesOfChars cs
    else match linesOfChars cs with
      | [] => [[c]]
      | l :: ls => (c :: l) :: ls

/-- The lines of a text, as strings. -/
def linesOf (s : String) : List String :=
  (linesOfChars s.data).map String.mk

/-- An environment mapping, as `Object.keys(env)` enumerates it: the keys
in enumeration order, each with the text `${env[key]}` of its value. -/
abbrev EnvMap := List (String × String)

/-- The line `${key}=${env[key]}`. -/
def envLine (kv : String × String) : String :=
  kv.1 ++ "=" ++ kv.2

/-- The text `saveEnv` writes:
`Object.keys(env).map(key => key=value).join('\n')`. -/
def envString (env : EnvMap) : String :=
  jsJoin "\n" (env.map envLine)

/-- The function `saveEnv(env)`: the environment file is written with the text of the
mapping; the file is not read. -/
def saveEnv (P : Paths) (env : EnvMap) (fs : FileSystem String) : FileSystem String :=
  writeFileSync fs P.envFilePath (envString env)

/-- The key a line defines: the text before its first `=`. -/
def keyOfLine (line : String) : String :=
  ⟨line.data.takeWhile (fun c => c != '=')⟩

/-- The lines of a text that define the key `k`. -/
def linesDefining (content k : String) : List String :=
  (linesOf content).filter (fun l => l.data.contains '=' && keyOfLine l == k)

/-! ## Proxy deployment (`nginxActions.js`, `main.js` `'deploy-nginx'`) -/

/-- The external steps of the proxy deployment, each of which can fail. -/
inductive Stage where
  /-- The call `createDirectories()` -/
  | createDirectories
  /-- The call `createDockerfile()` -/
  | createDockerfile
  /-- The call `createDockerComposeFile()` -/
  | createDockerComposeFile
  /-- The call `createNginxConfig()` -/
  | createNginxConfig
  /-- The call `createDNSUpdateScript()` -/
  | createDNSUpdateScript
  /-- The call `createDNSCleanupScript()` -/
  | createDNSCleanupScript
  /-- The call `exec('docker-compose -f … up -d', …)` of `startNginxContainer` -/
  | launchContainer
  /-- The calls `import('public-ip')` and `publicIp.publicIpv4()`, awaited -/
  | publicIp
  /-- The call `executeCertbotCommand(baseDomainCommand)` -/
  | certbotBase
  /-- The call `executeCertbotCommand(wildcardDomainCommand)` -/
  | certbotWildcard
  /-- The call `fs.writeFile(sslConfigPath, …)` of `updateNginxConfigWithSSL` -/
  | writeSslConfig
  /-- The call `exec(updateCommand, …)` of `updateNginxConfigWithSSL`: copy and reload -/
  | reloadNginx
  deriving DecidableEq, Repr

/-- Which external steps succeed. -/
abbrev Outcomes := Stage → Bool

/-- What the deployment does, in program order.  `began s` is the start of
an external step, `settled s ok` the point where the program has received
its result and goes on.  The launch command of `startNginxContainer` is
started with a callback that only logs: the program never waits for it, so
it has a `began` entry and no `settled` entry. -/
inductive Step where
  | began (s : Stage)
  | settled (s : Stage) (ok : Bool)
  deriving DecidableEq, Repr

/-- A promise that has settled: the steps taken, and the step whose error
is the rejection reason if it was rejected. -/
structure Settled where
  trace : List Step
  rejected : Option Stage
  deriving DecidableEq, Repr

/-- An `await` of one external step wrapped in a promise: the step is begun,
the program resumes with its result; a failure rejects with the error of
the step. -/
def awaitStage (o : Outcomes) (s : Stage) : Settled :=
  ⟨[.began s, .settled s (o s)], if o s then none else some s⟩

/-- Sequencing of awaits inside one `async` function body: the second part
runs only if the first did not throw. -/
def Settled.andThen (a : Settled) (b : Unit → Settled) : Settled :=
  match a.rejected with
  | some e => ⟨a.trace, some e⟩
  | none => ⟨a.trace ++ (b ()).trace, (b ()).rejected⟩

/-- The `try { … } catch (error) { console.error(…) }` that wraps a whole
`async` function body: the rejection is logged and the function resolves. -/
def Settled.catchAndLog (a : Settled) : Settled :=
  ⟨a.trace, none⟩

/-- The function `startNginxContainer()`: the six artifact steps are awaited in turn,
then the launch command is started without being awaited; the whole body
sits in a `try`/`catch` that logs. -/
def startNginxContainer (o : Outcomes) : Settled :=
  Settled.catchAndLog <|
    (awaitStage o .createDirectories).andThen fun _ =>
    (awaitStage o .createDockerfile).andThen fun _ =>
    (awaitStage o .createDockerComposeFile).andThen fun _ =>
    (awaitStage o .createNginxConfig).andThen fun _ =>
    (awaitStage o .createDNSUpdateScript).andThen fun _ =>
    (awaitStage o .createDNSCleanupScript).andThen fun _ =>
    ⟨[.began .launchContainer], none⟩

/-- The function `runCertbotSequentially(domainData)`. -/
def runCertbotSequentially (o : Outcomes) : Settled :=
  (awaitStage o .publicIp).andThen fun _ =>
  (awaitStage o .certbotBase).andThen fun _ =>
  awaitStage o .certbotWildcard

/-- The function `updateNginxConfigWithSSL(domainData, certPath)`. -/
def updateNginxConfigWithSSL (o : Outcomes) : Settled :=
  (awaitStage o .writeSslConfig).andThen fun _ =>
  awaitStage o .reloadNginx

/-- The function `deployNginxContainer(domainData)`: the three awaits sit in a
`try`/`catch` that logs. -/
def deployNginxContainer (o : Outcomes) : Settled :=
  Settled.catchAndLog <|
    (startNginxContainer o).andThen fun _ =>
    (runCertbotSequentially o).andThen fun _ =>
    updateNginxConfigWithSSL o

/-- The message of the `try` branch of the `'deploy-nginx'` handler. -/
def deploySuccessMessage : String :=
  "Nginx container deployed and SSL certificates created successfully."

/-- The `'deploy-nginx'` handler of `main.js`: the event it sends on
`'docker-logs'` once `deployNginxContainer` has settled; `message` gives
the `error.message` of a failed step. -/
def deployNginxHandler (message : Stage → String) (o : Outcomes) : Event :=
  match (deployNginxContainer o).rejected with
  | none => ⟨"docker-logs", deploySuccessMessage⟩
  | some s => ⟨"docker-logs", "Failed to deploy Nginx container with SSL: " ++ message s⟩

/-- Some stage of the deployment that was begun has failed. -/
def someStageFailed (o : Outcomes) : Bool :=
  (deployNginxContainer o).trace.any fun st =>
    match st with
    | .began s => !o s
    | .settled _ ok => !ok

/-! ## Runtime check (`dockerActions.js`) -/

/-- The commands `checkDockerInstalled` and `checkDockerContainers` run, and
the settle delay. -/
inductive Cmd where
  /-- The command `docker --version` -/
  | dockerVersion
  /-- The command `docker info` -/
  | dockerInfo
  /-- The command `Docker Desktop.exe --start` -/
  | startDesktop
  /-- The call `setTimeout(…, ms)` -/
  | wait (ms : Nat)
  /-- The command `docker ps --filter "network=…" --format "…"` -/
  | dockerPs (network : String)
  deriving DecidableEq, Repr

/-- The outcomes of the external probes: whether and when (in ms after the
call) the version probe returns and whether it succeeds, and the result of
the `n`-th daemon probe and of the `n`-th start command (counted from 0). -/
structure Probes where
  versionReturnsAt : Option Nat
  versionOk : Bool
  info : Nat → Bool
  start : Nat → Bool

/-- The commands issued so far. -/
structure Run where
  infoCalls : Nat
  startCalls : Nat
  log : List Cmd
  deriving DecidableEq, Repr

/-- The function `checkDockerDaemonRunning(callback)`: one `docker info`; the result is
the argument of the callback. -/
def checkDockerDaemonRunning (w : Probes) (r : Run) : Bool × Run :=
  (w.info r.infoCalls, { r with infoCalls := r.infoCalls + 1, log := r.log ++ [.dockerInfo] })

/-- The function `startDockerDaemon(callback)`: the start command; on an error the
callback gets `false`, otherwise the daemon is probed once after 5 s and
the callback gets the result of that probe. -/
def startDockerDaemon (w : Probes) (r : Run) : Bool × Run :=
  let r1 : Run := { r with startCalls := r.startCalls + 1, log := r.log ++ [.startDesktop] }
  if w.start r.startCalls then
    checkDockerDaemonRunning w { r1 with log := r1.log ++ [.wait 5000] }
  else
    (false, r1)

/-- The continuation of `exec('docker --version', …)` in
`checkDockerInstalled`: the callback invocation it ends in. -/
def onVersionResult (w : Probes) (r : Run) : (String × Bool) × Run :=
  if !w.versionOk then
    (("Docker is not installed.", false), r)
  else
    let (dockerRunning, r1) := checkDockerDaemonRunning w r
    if dockerRunning then
      (("Docker is installed and running.", true), r1)
    else
      let (daemonStarted, r2) := startDockerDaemon w r1
      if daemonStarted then
        (("Docker daemon started successfully.", true), r2)
      else
        (("Docker daemon failed to start.", false), r2)

/-- The function `checkDockerInstalled(callback)`: the invocations of the callback, in
order, and the commands issued.  The 10 s timer calls back with
`'Docker check timed out.'` unless the version probe has returned before
(`clearTimeout`); the continuation of the version probe runs whenever the
probe returns. -/
def checkDockerInstalled (w : Probes) : List (String × Bool) × Run :=
  let r0 : Run := ⟨0, 0, [.dockerVersion]⟩
  match w.versionReturnsAt with
  | none => ([("Docker check timed out.", false)], r0)
  | some t =>
    let (cb, r) := onVersionResult w r0
    if t < 10000 then ([cb], r) else ([("Docker check timed out.", false), cb], r)

/-! ## Conditions used to state the properties of the tick -/

/-- The status of the container is a text that contains `marker`. -/
def hasMarker (c : Container) (marker : String) : Bool :=
  match c.status with
  | some s => jsIncludes s marker
  | none => false

/-- Every status contains a terminal marker, `Exited` or `Created`. -/
def allTerminal (cs : List Container) : Bool :=
  cs.all fun c => hasMarker c "Exited" || hasMarker c "Created"

/-- Every status contains the running marker `Up`. -/
def allUp (cs : List Container) : Bool :=
  cs.all fun c => hasMarker c "Up"

/-- The number of containers whose status contains the running marker. -/
def upCount (cs : List Container) : Nat :=
  (cs.filter fun c => hasMarker c "Up").length

/-- The log line of the periodic check. -/
def periodicLog (cs : List Container) : Event :=
  ⟨"docker-logs", "Periodic check - Containers: " ++ jsJoin "\n" (cs.map containerLine)⟩

/-! ## Sample inputs -/

/-- Five containers of the managed network: four up, one restarting. -/
def sampleFiveContainers : List Container :=
  [⟨"core", some "Up 2 hours"⟩, ⟨"envoy", some "Up 2 hours"⟩, ⟨"redis", some "Up 2 hours"⟩,
   ⟨"observer", some "Up 2 hours"⟩, ⟨"resolver", some "Restarting (1) 5 seconds ago"⟩]

/-- Three containers: two up, one exited. -/
def sampleMixedContainers : List Container :=
  [⟨"core", some "Up 2 hours"⟩, ⟨"envoy", some "Up 2 hours"⟩,
   ⟨"redis", some "Exited (0) 3 minutes ago"⟩]

/-- Two containers, both stopped. -/
def sampleStoppedContainers : List Container :=
  [⟨"core", some "Exited (0) 3 minutes ago"⟩, ⟨"envoy", some "Created"⟩]

/-- Four containers whose status text contains `Up` and `Created`. -/
def sampleUpAndCreated : List Container :=
  [⟨"core", some "Up (Created)"⟩, ⟨"envoy", some "Up (Created)"⟩,
   ⟨"redis", some "Up (Created)"⟩, ⟨"observer", some "Up (Created)"⟩]

/-- Four containers, all up. -/
def sampleFourUp : List Container :=
  [⟨"core", some "Up 2 hours"⟩, ⟨"envoy", some "Up 2 hours"⟩, ⟨"redis", some "Up 2 hours"⟩,
   ⟨"observer", some "Up 2 hours"⟩]

/-- Paths as on a machine with home directory `C:/Users/op`. -/
def samplePaths : Paths :=
  ⟨"C:/Users/op/ar-io-node/docker-compose.yaml", "C:/Users/op/ar-io-node/.env",
   "C:/Users/op/AppData/Local/Temp/docker-compose.yaml"⟩

/-- A filesystem holding only the environment file, with the given text. -/
def sampleEnvFs (content : String) : FileSystem String :=
  fun q => if q = samplePaths.envFilePath then some content else none

/-- An update mapping with two keys. -/
def sampleUpdate : EnvMap :=
  [("OBSERVER_WALLET", "xyz"), ("GRAPHQL_HOST", "arweave.net")]

/-- A stand-in for the digest primitive on the sample manifests: the
decimal text of the bytes. -/
def sampleDigest (b : Bytes) : String :=
  toString (b.map UInt8.toNat)

/-- A filesystem holding only the local manifest, with the given bytes. -/
def sampleManifestFs (content : Bytes) : FileSystem Bytes :=
  fun q => if q = samplePaths.composeFilePath then some content else none

/-- An address as `arweave.wallets.getAddress` returns it: 43 characters
of the URL-safe base64 alphabet. -/
def sampleAddress : String :=
  "vh-NTHVvlKZqRxc8LyyTNok65yQ55a_PJ1zWLb9G2JI"

/-- An environment file that mentions `OBSERVER_WALLET` in a comment and
does not define it. -/
def sampleEnvMention : String :=
  "AR_IO_WALLET=abc\n# OBSERVER_WALLET is filled in when a wallet is loaded"

/-- An environment file with the key `OBSERVER_WALLET` and another key
whose name ends in `OBSERVER_WALLET`. -/
def sampleEnvTwoKeys : String :=
  "BACKUP_OBSERVER_WALLET=old-backup\nOBSERVER_WALLET=old"

/-- Every step succeeds except the creation of the directories. -/
def directoriesFail : Outcomes :=
  fun s => s != .createDirectories

/-- Every step succeeds except the certificate run for the base domain. -/
def certbotBaseFails : Outcomes :=
  fun s => s != .certbotBase

/-- The version probe succeeds after 120 ms, the daemon is down at the
first probe, the start command succeeds and the second probe finds the
daemon up. -/
def sampleProbes : Probes :=
  ⟨some 120, true, fun n => n == 1, fun _ => true⟩

/-! ## Container check (`gatewayInitActions.js`, `checkDockerContainers`) -/

/-- The characters `String.prototype.trim` removes: ECMAScript white space
and line terminators. -/
def isJsWhitespace (c : Char) : Bool :=
  c == '\t' || c == '\n' || c == Char.ofNat 0x0B || c == Char.ofNat 0x0C || c == '\r'
    || c == ' ' || c == Char.ofNat 0xA0 || c == Char.ofNat 0x1680
    || (0x2000 ≤ c.toNat && c.toNat ≤ 0x200A)
    || c == Char.ofNat 0x2028 || c == Char.ofNat 0x2029 || c == Char.ofNat 0x202F
    || c == Char.ofNat 0x205F || c == Char.ofNat 0x3000 || c == Char.ofNat 0xFEFF

/-- The text `s.trim()`, on characters. -/
def trimChars (s : List Char) : List Char :=
  ((s.dropWhile isJsWhitespace).reverse.dropWhile isJsWhitespace).reverse

/-- The pieces `line.split(': ')`, on characters. -/
def splitColonSpace : List Char → List (List Char)
  | [] => [[]]
  | ':' :: ' ' :: rest => [] :: splitColonSpace rest
  | c :: cs =>
    match splitColonSpace cs with
    | [] => [[c]]
    | p :: ps => (c :: p) :: ps

/-- The record built from one line:
`const [name, status] = line.split(': '); return (name, status)`. -/
def parseLine (line : List Char) : Container :=
  match splitColonSpace line with
  | [] => ⟨"", none⟩
  | [name] => ⟨⟨name⟩, none⟩
  | name :: status :: _ => ⟨⟨name⟩, some ⟨status⟩⟩

/-- The listing built from the output of `docker ps`:
`containerStdout.trim().split('\n').filter(Boolean).map(…)`. -/
def parseContainers (containerStdout : String) : List Container :=
  ((linesOfChars (trimChars containerStdout.data)).filter fun l => !l.isEmpty).map parseLine

/-- The outcomes of the external commands of `checkDockerContainers`: the
result of the `n`-th version probe, daemon probe and start command
(counted from 0), the network name `getNetworkNameFromCompose()` reads
from the manifest (`none` for `null`), and the result of `docker ps`: its
output or the message of its error. -/
structure ContainerProbes where
  version : Nat → Bool
  info : Nat → Bool
  start : Nat → Bool
  networkName : Option String
  ps : Except String String

/-- The commands issued so far by one invocation of
`checkDockerContainers`. -/
structure CheckRun where
  versionCalls : Nat
  infoCalls : Nat
  startCalls : Nat
  log : List Cmd
  deriving DecidableEq, Repr

/-- The arguments of the callback of `checkDockerContainers`:
`callback(false, message)` or `callback(true, containers)`. -/
inductive CheckResult where
  | failure (message : String)
  | success (containers : List Container)
  deriving DecidableEq, Repr

/-- The function `isDockerRunning(callback)`: one `docker info`. -/
def isDockerRunning (w : ContainerProbes) (r : CheckRun) : Bool × CheckRun :=
  (w.info r.infoCalls, { r with infoCalls := r.infoCalls + 1, log := r.log ++ [.dockerInfo] })

/-- The function `startDocker(callback)`: the start command; on an error
the callback gets `false`, otherwise the daemon is probed after 5 s and the
callback gets the result of that probe. -/
def startDocker (w : ContainerProbes) (r : CheckRun) : Bool × CheckRun :=
  let r1 : CheckRun :=
    { r with startCalls := r.startCalls + 1, log := r.log ++ [.startDesktop] }
  if w.start r.startCalls then
    isDockerRunning w { r1 with log := r1.log ++ [.wait 5000] }
  else
    (false, r1)

/-- The function `checkDockerContainers(callback)`.  The function calls
itself when the daemon was down and `startDocker` reports it started, so
the model takes `fuel`, the number of invocations allowed; `none` means
that the callback has not been invoked within that many invocations. -/
def checkDockerContainers (w : ContainerProbes) : Nat → CheckRun → Option (CheckResult × CheckRun)
  | 0, _ => none
  | fuel + 1, r =>
    let r1 : CheckRun :=
      { r with versionCalls := r.versionCalls + 1, log := r.log ++ [.dockerVersion] }
    if !w.version r.versionCalls then
      some (.failure "Docker is not installed.", r1)
    else
      let (dockerRunning, r2) := isDockerRunning w r1
      if dockerRunning then
        match w.networkName with
        | none => some (.failure "No network name found", r2)
        | some networkName =>
          let r3 : CheckRun := { r2 with log := r2.log ++ [.dockerPs networkName] }
          match w.ps with
          | .error message => some (.failure message, r3)
          | .ok containerStdout => some (.success (parseContainers containerStdout), r3)
      else
        let (dockerStarted, r3) := startDocker w r2
        if dockerStarted then
          checkDockerContainers w fuel r3
        else
          some (.failure "Failed to start Docker.", r3)

/-- The state of a fresh invocation. -/
def freshCheck : CheckRun := ⟨0, 0, 0, []⟩

/-- The daemon probe fails on every even call and succeeds on every odd
one: down at each check, up right after each start. -/
def flappingProbes : ContainerProbes :=
  ⟨fun _ => true, fun n => n % 2 == 1, fun _ => true, some "ar-io-network",
   .ok "core: Up 2 hours\nenvoy: Up 2 hours"⟩

/-- The daemon is down at the first check, up after the first start, down
again at the re-check, and up from the second start on. -/
def twiceDownProbes : ContainerProbes :=
  ⟨fun _ => true, fun n => n == 1 || 3 ≤ n, fun _ => true, some "ar-io-network",
   .ok "core: Up 2 hours\nenvoy: Up 2 hours"⟩

/-! ## Runtime installation (`dockerActions.js`, `installDocker`) -/

/-- The function `runInstaller(installerPath, callback)`: the installer
command is run and the callback gets whether it ran without an error.  The
filesystem is not touched. -/
def runInstaller (installerOk : Bool) (fs : FileSystem Bytes) : FileSystem Bytes × Bool :=
  (fs, installerOk)

/-- The function `installDocker(callback)`: the filesystem and the argument
of the callback at the moment the callback is invoked.
`fs.createWriteStream(installerPath)` creates the file empty; a 200
response is piped into it and `runInstaller` is called when the stream has
finished; any other status calls back with `false`; a transport error
unlinks the file and calls back with `false`. -/
def installDocker (installerPath : String) (net : HttpOutcome) (installerOk : Bool)
    (fs : FileSystem Bytes) : FileSystem Bytes × Bool :=
  let fs0 := writeFileSync fs installerPath []
  match net with
  | .response statusCode body =>
    if statusCode = 200 then
      runInstaller installerOk (writeFileSync fs0 installerPath body)
    else
      (fs0, false)
  | .error _ => (unlink fs0 installerPath, false)

/-! ## Registrar records (`networkActions.js`, `createDNSRecord`) -/

/-- A JavaScript value used as a condition: `undefined`, `null` and the
empty text are false. -/
def jsTruthy (v : Option String) : Bool :=
  match v with
  | some t => t != ""
  | none => false

/-- The domain data handed to `checkDNSRecords` and `createDNSRecord`. -/
structure DomainData where
  fqdn : String
  isNamecheap : Bool
  apiKey : Option String
  username : Option String
  deriving DecidableEq, Repr

/-- The attributes `record.$` of one host record of the registrar. -/
structure HostRecord where
  name : String
  recordType : String
  address : String
  ttl : Option String
  deriving DecidableEq, Repr

/-- The keys of the request payload of `setHosts`: `SLD`, `TLD` and the
indexed keys `HostName${i}`, `RecordType${i}`, `Address${i}`, `TTL${i}`. -/
inductive PayloadKey where
  | sld
  | tld
  | hostName (i : Nat)
  | recordType (i : Nat)
  | address (i : Nat)
  | ttl (i : Nat)
  deriving DecidableEq, Repr

/-- A request payload: the value stored under each key, if any. -/
abbrev Payload := PayloadKey → Option String

/-- The assignment `requestPayload[key] = value`. -/
def Payload.set (p : Payload) (key : PayloadKey) (value : String) : Payload :=
  fun q => if q = key then some value else p q

/-- The loop `existingRecords.forEach((record, index) => …)`, from the
given index on. -/
def fillPayload : Nat → List HostRecord → Payload → Payload
  | _, [], p => p
  | index, record :: rest, p =>
    let p1 := p.set (.hostName (index + 1)) record.name
    let p2 := p1.set (.recordType (index + 1)) record.recordType
    let p3 := p2.set (.address (index + 1)) record.address
    let p4 := if jsTruthy record.ttl then p3.set (.ttl (index + 1)) (record.ttl.getD "") else p3
    fillPayload (index + 1) rest p4

/-- The pieces `s.split(sep)` for a separator of one character. -/
def splitAtChar (sep : Char) : List Char → List (List Char)
  | [] => [[]]
  | c :: cs =>
    if c = sep then [] :: splitAtChar sep cs
    else match splitAtChar sep cs with
      | [] => [[c]]
      | p :: ps => (c :: p) :: ps

/-- The parts `domainData.fqdn.split('.')`. -/
def domainParts (fqdn : String) : List String :=
  (splitAtChar '.' fqdn.data).map String.mk

/-- The record list after `existingRecords.push(…)`: the existing records
followed by the new record, with TTL `'300'`. -/
def recordsToSubmit (existingRecords : List HostRecord) (type name ip : String) :
    List HostRecord :=
  existingRecords ++ [⟨name, type, ip, some "300"⟩]

/-- The payload `createDNSRecord` builds for `setHosts` from the existing
records. -/
def setHostsPayload (fqdn : String) (existingRecords : List HostRecord)
    (type name ip : String) : Payload :=
  let parts := domainParts fqdn
  let p0 : Payload := fun _ => none
  let p1 := (p0.set .sld (jsJoin "." parts.dropLast)).set .tld (parts.getLast?.getD "")
  fillPayload 0 (recordsToSubmit existingRecords type name ip) p1

/-- What the registrar side delivers to `createDNSRecord`: the public
address of the client (`none` when the lookup throws) and the host list of
`getHosts` (`none` when the call throws or the response lacks the expected
structure). -/
structure RegistrarWorld where
  clientIp : Option String
  getHosts : Option (List HostRecord)

/-- The function `createDNSRecord(domainData, type, name, ip)`: the payload
handed to `setHosts`, or `none` when the function returns before the call.
Every exception is caught and logged inside the function. -/
def createDNSRecord (d : DomainData) (w : RegistrarWorld) (type name ip : String) :
    Option Payload :=
  if !d.isNamecheap || !jsTruthy d.apiKey || !jsTruthy d.username then none
  else
    match w.clientIp with
    | none => none
    | some _ =>
      match w.getHosts with
      | none => none
      | some existingRecords => some (setHostsPayload d.fqdn existingRecords type name ip)

/-- The indices `j` among `1 … bound` whose record in the payload has the
given host name and record type. -/
def indicesOf (p : Payload) (bound : Nat) (host type : String) : List Nat :=
  (List.range (bound + 1)).filter fun j =>
    p (.hostName j) == some host && p (.recordType j) == some type

/-! ## DNS check (`networkActions.js`, `checkDNSRecords`) -/

/-- The outcome of `resolveDNS(hostname)`: the addresses, or a rejection
(a resolver error or the 5 s timeout). -/
inductive DnsAnswer where
  | resolved (addresses : List String)
  | rejected (reason : String)
  deriving DecidableEq, Repr

/-- What the environment delivers to `checkDNSRecords`: the public address
(`none` when the lookup throws), the outcome of resolving each name, and
the index of the button the operator presses in the prompt about each
name (0 is `Yes`). -/
structure DnsWorld where
  publicIp : Option String
  resolve : String → DnsAnswer
  response : String → Nat

/-- What `checkDNSRecords` does, in order. -/
inductive DnsAction where
  /-- The call `resolveDNS(hostname)` -/
  | resolve (hostname : String)
  /-- The call `dialog.showMessageBox` with the given title, about a name -/
  | prompt (title : String) (hostname : String)
  /-- The call `createDNSRecord(domainData, type, name, ip)` -/
  | createDNSRecord (type name ip : String)
  deriving DecidableEq, Repr

/-- The condition `domainData.isNamecheap && domainData.apiKey`. -/
def registrarEnabled (d : DomainData) : Bool :=
  d.isNamecheap && jsTruthy d.apiKey

/-- The prompt about a name and what follows it: the record is created
when the operator presses the first button. -/
def promptAndCreate (w : DnsWorld) (title hostname name ip : String) : List DnsAction :=
  .prompt title hostname ::
    (if w.response hostname == 0 then [.createDNSRecord "A" name ip] else [])

/-- The first `try` block of `checkDNSRecords`, for the bare domain: a
rejection of `resolveDNS` is caught and logged. -/
def checkBareDomain (d : DomainData) (w : DnsWorld) (ip : String) : List DnsAction :=
  .resolve d.fqdn ::
    match w.resolve d.fqdn with
    | .resolved addresses =>
      if !addresses.contains ip then
        if registrarEnabled d then promptAndCreate w "DNS Record Mismatch" d.fqdn "@" ip
        else []
      else []
    | .rejected _ => []

/-- The name of the probe subdomain, `potato.${fqdn}`. -/
def probeName (d : DomainData) : String :=
  "potato." ++ d.fqdn

/-- The second `try` block of `checkDNSRecords`, for the probe subdomain:
on a rejection of `resolveDNS` the `catch` block prompts as well. -/
def checkProbeSubdomain (d : DomainData) (w : DnsWorld) (ip : String) : List DnsAction :=
  .resolve (probeName d) ::
    match w.resolve (probeName d) with
    | .resolved addresses =>
      if !addresses.contains ip then
        if registrarEnabled d then promptAndCreate w "DNS Record Mismatch" (probeName d) "*" ip
        else []
      else []
    | .rejected _ =>
      if registrarEnabled d then promptAndCreate w "DNS Record Missing" (probeName d) "*" ip
      else []

/-- The function `checkDNSRecords(domainData, win)`: nothing is checked
when the public address cannot be fetched. -/
def checkDNSRecords (d : DomainData) (w : DnsWorld) : List DnsAction :=
  match w.publicIp with
  | none => []
  | some ip => checkBareDomain d w ip ++ checkProbeSubdomain d w ip

/-- The prompt for a name was shown. -/
def promptShown (t : List DnsAction) (hostname : String) : Bool :=
  t.any fun a =>
    match a with
    | .prompt _ h => h == hostname
    | _ => false

/-! ## Port forwarding (`networkActions.js`, `checkAndForwardUPnP`) -/

/-- The result the router gives to one mapping request: `err` is absent or
an error with a message. -/
inductive MappingResult where
  | ok
  | error (message : String)
  deriving DecidableEq, Repr

/-- The callback of `client.portMapping` for one port, applied to the
array `failedPorts`. -/
def onMappingResult (failedPorts : List Nat) (external : Nat) (result : MappingResult) :
    List Nat :=
  match result with
  | .error message =>
    if jsIncludes message "ConflictInMappingEntry" then failedPorts
    else failedPorts ++ [external]
  | .ok => failedPorts

/-- One run of `checkAndForwardUPnP`: the ports requested, the content of
`failedPorts` at the moment `callback(failedPorts)` is invoked, and its
content once the router has answered every request. -/
structure UpnpRun where
  requested : List Nat
  atCallback : List Nat
  afterAnswers : List Nat
  deriving DecidableEq, Repr

/-- The function `checkAndForwardUPnP(callback)`.  `ports.forEach` only
starts the two requests; `client.portMapping` answers through its callback
in a later turn of the event loop (it first searches the gateway on the
network), and `callback(failedPorts)` is the next statement after the
loop: it runs while `failedPorts` is still the empty array. -/
def checkAndForwardUPnP (result : Nat → MappingResult) : UpnpRun :=
  let ports : List Nat := [80, 443]
  let failedPorts : List Nat := []
  { requested := ports
    atCallback := failedPorts
    afterAnswers := ports.foldl (fun acc port => onMappingResult acc port (result port))
      failedPorts }

/-- The caller in `createWindow`: `notifyUserManualForwarding(failedPorts)`
is called when `failedPorts.length > 0` at the moment of the callback. -/
def manualForwardingAdvisory (run : UpnpRun) : Option (List Nat) :=
  if run.atCallback.length > 0 then some run.atCallback else none

/-! ## Sample inputs for the installation, registrar, DNS and port checks -/

/-- The installer path `path.join(os.tmpdir(), 'DockerInstaller.exe')` on
the sample machine. -/
def sampleInstallerPath : String :=
  "C:/Users/op/AppData/Local/Temp/DockerInstaller.exe"

/-- A filesystem holding the local manifest and a downloaded copy with the
same bytes at the temporary path. -/
def sampleSameFs : FileSystem Bytes :=
  fun q => if q = samplePaths.composeFilePath then some [1, 2, 3]
    else if q = samplePaths.tempFilePath then some [1, 2, 3] else none

/-- A filesystem holding only a downloaded copy at the temporary path. -/
def sampleTempOnlyFs : FileSystem Bytes :=
  fun q => if q = samplePaths.tempFilePath then some [1, 2, 4] else none

/-- Domain data with the registrar API enabled. -/
def sampleDomain : DomainData :=
  ⟨"example.com", true, some "api-key", some "operator"⟩

/-- A host list that already holds an A record for the bare domain. -/
def sampleHosts : List HostRecord :=
  [⟨"@", "A", "203.0.113.7", some "1800"⟩, ⟨"www", "CNAME", "example.com.", none⟩]

/-- A host list without an A record for the bare domain. -/
def sampleOtherHosts : List HostRecord :=
  [⟨"www", "CNAME", "example.com.", some "1800"⟩, ⟨"@", "MX", "mail.example.com.", none⟩]

/-- A registrar that answers with the sample host list. -/
def sampleRegistrar : RegistrarWorld :=
  ⟨some "198.51.100.4", some sampleHosts⟩

/-- A registrar that answers with the host list without the A record. -/
def sampleOtherRegistrar : RegistrarWorld :=
  ⟨some "198.51.100.4", some sampleOtherHosts⟩

/-- The public address is known, no name resolves, and the operator would
press `Yes` in every prompt. -/
def nothingResolves : DnsWorld :=
  ⟨some "198.51.100.4", fun _ => .rejected "queryA ENOTFOUND", fun _ => 0⟩

/-- Both names resolve to another address; the operator presses `Yes` for
the bare domain and `No` for the probe subdomain. -/
def bothMismatch : DnsWorld :=
  ⟨some "198.51.100.4", fun _ => .resolved ["203.0.113.7"],
   fun h => if h = "example.com" then 0 else 1⟩

/-- The router refuses the mapping of port 80 and accepts that of 443. -/
def routerRefuses80 : Nat → MappingResult :=
  fun port => if port = 80 then .error "Action Failed" else .ok

/-! ## Service group start and stop (`gatewayInitActions.js`, `main.js`) -/

/-- What `exec(command, (error, stdout, stderr) => …)` delivers: `error` is
set when the command could not be run or exited non-zero. -/
structure ExecOutcome where
  error : Option String
  stdout : String
  stderr : String
  deriving DecidableEq, Repr

/-- The function `startDockerCompose(win, callback)`: the arguments of the
callback, `(false, stderr)` on an error and `(true, stdout)` otherwise. -/
def startDockerCompose (up : ExecOutcome) : Bool × String :=
  if up.error.isSome then (false, up.stderr) else (true, up.stdout)

/-- The function `stopDockerCompose(win, callback)`: the arguments of the
callback, `(false, stderr)` on an error and `(true, stdout)` otherwise. -/
def stopDockerCompose (down : ExecOutcome) : Bool × String :=
  if down.error.isSome then (false, down.stderr) else (true, down.stdout)

/-- The `'start-gateway'` handler: the events it sends. -/
def startGatewayHandler (up : ExecOutcome) : List Event :=
  let (startSuccess, logs) := startDockerCompose up
  if startSuccess then [⟨"docker-logs", logs⟩]
  else [⟨"docker-logs", "Failed to start Docker Compose: " ++ logs⟩]

/-- The `'stop-gateway'` handler: the events it sends. -/
def stopGatewayHandler (down : ExecOutcome) : List Event :=
  let (stopSuccess, logs) := stopDockerCompose down
  if stopSuccess then [⟨"docker-logs", logs⟩]
  else [⟨"docker-logs", "Failed to stop Docker Compose: " ++ logs⟩]

/-- The `'save-env'` handler, after `saveEnv(env)`: the events it sends.
The callback given to `stopDockerCompose` takes only `stopSuccess`. -/
def saveEnvHandler (down up : ExecOutcome) : List Event :=
  ⟨"docker-logs", "Environment variables updated. Restarting Docker containers..."⟩ ::
    (let (stopSuccess, _) := stopDockerCompose down
     if stopSuccess then
       let (startSuccess, logs) := startDockerCompose up
       if startSuccess then [⟨"docker-logs", logs⟩]
       else [⟨"docker-logs", "Failed to start Docker Compose: " ++ logs⟩]
     else [⟨"docker-logs", "Failed to stop Docker Compose."⟩])

/-! ## Domain configuration file (`networkActions.js`) -/

/-- A JSON value of a domain record. -/
inductive Json where
  | null
  | bool (b : Bool)
  | str (s : String)
  deriving DecidableEq, Repr

/-- A JSON object: its properties in order.  A property that is
`undefined` is not in the list, as `JSON.stringify` leaves it out. -/
abbrev JsonObject := List (String × Json)

/-- The value `o[key]`: `none` stands for `undefined`. -/
def JsonObject.get (o : JsonObject) (key : String) : Option Json :=
  (o.find? fun kv => kv.1 == key).map Prod.snd

/-- The content of the domain file: the JSON document it holds, or a text
`JSON.parse` rejects. -/
inductive DomainFile where
  | json (document : JsonObject)
  | unparsable (text : String)
  deriving DecidableEq, Repr

/-- The object `domainConfig` of `saveDomainData`, as `JSON.stringify`
writes it: `fqdn`, `isNamecheap`, and `apiKey`, which is the key of the
domain data when `isNamecheap` holds (left out when the domain data has
none) and `null` otherwise. -/
def domainConfig (d : DomainData) : JsonObject :=
  [("fqdn", .str d.fqdn), ("isNamecheap", .bool d.isNamecheap)] ++
    (if d.isNamecheap then
      match d.apiKey with
      | some key => [("apiKey", .str key)]
      | none => []
    else [("apiKey", .null)])

/-- The function `saveDomainData(domainData, callback)`: the filesystem
and the argument of the callback; `writeOk` tells whether `fs.writeFile`
succeeds. -/
def saveDomainData (domainFilePath : String) (writeOk : Bool) (d : DomainData)
    (fs : FileSystem DomainFile) : FileSystem DomainFile × Bool :=
  if writeOk then (writeFileSync fs domainFilePath (.json (domainConfig d)), true)
  else (fs, false)

/-- The function `loadDomainData(callback)`: the argument of the callback,
`none` for `null`; `readOk` tells whether `fs.readFile` succeeds. -/
def loadDomainData (domainFilePath : String) (readOk : Bool) (fs : FileSystem DomainFile) :
    Option JsonObject :=
  if existsSync fs domainFilePath then
    if readOk then
      match fs domainFilePath with
      | some (.json document) => some document
      | _ => none
    else none
  else none

/-- The property `apiKey` of a record is present and not `null`. -/
def hasApiKey (o : JsonObject) : Bool :=
  match o.get "apiKey" with
  | some (.str _) => true
  | some (.bool _) => true
  | _ => false

/-! ## Propagation loop of the auth-hook script (`nginxActions.js`) -/

/-- What the loop of `dnsUpdateScript.sh` does. -/
inductive LoopAction where
  /-- The command `dig +short TXT _acme-challenge.$CERTBOT_DOMAIN` of attempt `i` -/
  | dig (i : Nat)
  /-- The command `sleep 30` -/
  | sleep30
  deriving DecidableEq, Repr

/-- How the loop ends: the `break` (the script goes on to its last line and
ends with status 0) or `exit 1`. -/
inductive LoopExit where
  | completed
  | exit1
  deriving DecidableEq, Repr

/-- The body of `for i in (1..20); do … done` over the remaining values of
`i`: `txt i` is the polled TXT value of attempt `i`, with the quotes
removed.  A match breaks out of the loop; otherwise the script sleeps and,
when `i` is 20, exits with status 1. -/
def propagationLoopOver (txt : Nat → String) (validation : String) :
    List Nat → List LoopAction × LoopExit
  | [] => ([], .completed)
  | i :: rest =>
    if txt i = validation then ([.dig i], .completed)
    else if i = 20 then ([.dig i, .sleep30], .exit1)
    else
      let (actions, exit) := propagationLoopOver txt validation rest
      (.dig i :: .sleep30 :: actions, exit)

/-- The propagation loop of the script, over `1 … 20`. -/
def propagationLoop (txt : Nat → String) (validation : String) : List LoopAction × LoopExit :=
  propagationLoopOver txt validation (List.range' 1 20)

/-- The number of polls among the actions. -/
def pollCount (actions : List LoopAction) : Nat :=
  (actions.filter fun a => a != .sleep30).length

/-! ## Installation flag (`main.js`, `isInstallingDocker`) -/

/-- Where an installation of the runtime was started: in the startup path
of `createWindow`, after the operator agreed, or by the `'install-docker'`
command. -/
inductive InstallOrigin where
  | startup
  | command
  deriving DecidableEq, Repr

/-- The part of the state of `main.js` the periodic check depends on: the
module variable `isInstallingDocker`, and the installations started by
`installDocker` whose callback has not been invoked yet. -/
structure MainState where
  isInstallingDocker : Bool
  running : List InstallOrigin
  deriving DecidableEq, Repr

/-- What happens to the main process. -/
inductive MainEvent where
  /-- The operator answers `Yes` to the install prompt at startup -/
  | consentYes
  /-- The `'install-docker'` command arrives -/
  | installDockerCommand
  /-- The callback of `installDocker` is invoked -/
  | installCallback (origin : InstallOrigin)
  /-- The interval timer fires -/
  | tick
  deriving DecidableEq, Repr

/-- What the main process starts in response. -/
inductive MainAction where
  /-- The call `installDocker(…)` -/
  | installDocker (origin : InstallOrigin)
  /-- The call `checkDockerContainers(…)` of the periodic check, whose
  callback sends the `update-buttons` and `docker-logs` events -/
  | checkDockerContainers
  deriving DecidableEq, Repr

/-- One step of the main process.  The startup path sets the flag before
`installDocker` and resets it in the callback; the `'install-docker'`
handler calls `installDocker` and does not touch the flag; the periodic
check does nothing while the flag is set. -/
def mainStep (s : MainState) : MainEvent → MainState × List MainAction
  | .consentYes =>
    ({ isInstallingDocker := true, running := s.running ++ [.startup] },
      [.installDocker .startup])
  | .installDockerCommand =>
    ({ s with running := s.running ++ [.command] }, [.installDocker .command])
  | .installCallback .startup =>
    ({ isInstallingDocker := false, running := s.running.erase .startup }, [])
  | .installCallback .command =>
    ({ s with running := s.running.erase .command }, [])
  | .tick =>
    (s, if !s.isInstallingDocker then [.checkDockerContainers] else [])

/-- The main process after a sequence of events, with everything it has
started. -/
def mainRun (s : MainState) : List MainEvent → MainState × List MainAction
  | [] => (s, [])
  | e :: es =>
    let (s1, a1) := mainStep s e
    let (s2, a2) := mainRun s1 es
    (s2, a1 ++ a2)

/-- The state when the window is created. -/
def mainStart : MainState := ⟨false, []⟩

/-! ## Firewall rules (`networkActions.js`, `checkPortsInFirewall`) -/

/-- The lines `findstr /I /C:"needle"` lets through: those that contain
the needle, letter case ignored. -/
def findstr (needle : String) (input : String) : List String :=
  ((linesOfChars input.data).filter fun line =>
    includesChars (needle.data.map Char.toLower) (line.map Char.toLower)).map String.mk

/-- The `stdout` of `netsh … show rule name=all | findstr /I
/C:"LocalPort=port"`, given the output of the `netsh` command. -/
def showRuleStdout (listing : String) (port : Nat) : String :=
  String.join ((findstr ("LocalPort=" ++ toString port) listing).map fun l => l ++ "\n")

/-- The commands and log lines of `checkPortsInFirewall`. -/
inductive FirewallAction where
  /-- The command `netsh … show rule name=all | findstr …` for a port -/
  | showRule (port : Nat)
  /-- The command `netsh advfirewall firewall add rule …` for a port -/
  | addRule (port : Nat)
  /-- A line on the console -/
  | log (text : String)
  deriving DecidableEq, Repr

/-- The callback of the `show rule` command for one port, with what
follows it: `addOk` tells whether the `add rule` command succeeds. -/
def onShowRule (listing : String) (addOk : Nat → Bool) (port : Nat) : List FirewallAction :=
  if !jsIncludes (showRuleStdout listing port) (toString port) then
    [.addRule port,
     if addOk port then .log ("Port " ++ toString port ++ " has been allowed in the firewall.")
     else .log ("Failed to open port " ++ toString port ++ " in the firewall")]
  else
    [.log ("Port " ++ toString port ++ " is already open in the firewall.")]

/-- One run of `checkPortsInFirewall(callback)`: what had been done when
`callback()` was invoked (the two `show rule` commands were started, no
result had arrived), and what is done afterwards, per port. -/
structure FirewallRun where
  beforeCallback : List FirewallAction
  afterCallback : Nat → List FirewallAction

/-- The function `checkPortsInFirewall(callback)`. -/
def checkPortsInFirewall (listing : String) (addOk : Nat → Bool) : FirewallRun :=
  { beforeCallback := [80, 443].map .showRule
    afterCallback := fun port => if port ∈ [80, 443] then onShowRule listing addOk port else [] }

/-! ## Listing format -/

/-- The text `pieces.join(': ')`, on characters. -/
def joinColonSpace : List (List Char) → List Char
  | [] => []
  | [p] => p
  | p :: q :: rest => p ++ ':' :: ' ' :: joinColonSpace (q :: rest)

/-- The lines of the trimmed listing that are not empty, the lines the
parse keeps. -/
def listingLines (containerStdout : String) : List (List Char) :=
  (linesOfChars (trimChars containerStdout.data)).filter fun l => !l.isEmpty

/-- The records re-formatted as in the periodic log line:
`containers.map(c => name: status).join('\n')`. -/
def formatContainers (cs : List Container) : String :=
  jsJoin "\n" (cs.map containerLine)

/-! ## Sample inputs for the last checks -/

/-- The orchestration tool exits non-zero with a text on `stderr`. -/
def composeFails : ExecOutcome :=
  ⟨some "Command failed", "", "network ar-io-network has active endpoints"⟩

/-- The orchestration tool succeeds. -/
def composeSucceeds : ExecOutcome :=
  ⟨none, "Container core  Started", ""⟩

/-- The path `path.join(os.homedir(), 'ar-io-node/.domain')` on the sample
machine. -/
def sampleDomainFilePath : String :=
  "C:/Users/op/ar-io-node/.domain"

/-- Domain data with the registrar flag set and no API key. -/
def domainWithoutKey : DomainData :=
  ⟨"example.com", true, none, some "operator"⟩

/-- A listing with an empty line between two containers. -/
def listingWithBlankLine : String :=
  "core: Up 2 hours\n\nenvoy: Up 2 hours\n"

/-- A listing of two containers. -/
def listingOfTwo : String :=
  "core: Up 2 hours\nenvoy: Exited (0) 3 minutes ago\n"

/-- The output of `netsh advfirewall firewall show rule name=all` for one
rule that allows local port 80, in the layout `netsh` prints. -/
def netshListingPort80 : String :=
  "Rule Name:                            Allow Port 80\n" ++
  "----------------------------------------------------------------------\n" ++
  "Enabled:                              Yes\n" ++
  "Direction:                            In\n" ++
  "Protocol:                             TCP\n" ++
  "LocalPort:                            80\n" ++
  "Action:                               Allow\n"

/-- A rule listing in the layout the search text of the code expects, with
one rule, for local port 8080. -/
def keyValueListingPort8080 : String :=
  "Rule Name=Allow Port 8080\nProtocol=TCP\nLocalPort=8080\nAction=Allow\n"

/-- The version probe succeeds after 12 s, with the daemon running. -/
def lateProbes : Probes :=
  ⟨some 12000, true, fun _ => true, fun _ => true⟩

/-- The TXT value is the validation value from attempt 3 on. -/
def txtFromThird : Nat → String :=
  fun i => if 3 ≤ i then "token" else ""

/-! # Theorems -/


/-! ## Manifest synchronisation -/

theorem compareComposeFiles_of_local {sha256 : Bytes → String} {P : Paths}
    {newFilePath : String} {fs : FileSystem Bytes} {L N : Bytes}
    (hL : fs P.composeFilePath = some L) (hN : fs newFilePath = some N) :
    compareComposeFiles sha256 P newFilePath fs =
      .ok (fs, if sha256 L = sha256 N then .args2 true false
               else .args3 true true newFilePath) := by
  unfold compareComposeFiles
  simp only [existsSync, readFileSync, hL, hN, Option.isSome_some, if_true, bind, Except.bind,
    pure, Except.pure]
  split <;> simp_all

/-- C1: with a local manifest `L` and a downloaded content `N` of a
different digest, the manifest sync (`downloadComposeFile`, which ends in
`compareComposeFiles`) asks for confirmation and leaves `L` at the local
manifest path; the `'user-confirmation'` handler leaves the filesystem as
it is when `confirmed` is false and puts `N` at the local manifest path
when `confirmed` is true. -/
theorem manifest_sync_keeps_local_until_confirmed
    (sha256 : Bytes → String) (P : Paths) (fs : FileSystem Bytes) (L N : Bytes)
    (hP : P.tempFilePath ≠ P.composeFilePath)
    (hL : fs P.composeFilePath = some L) (hd : sha256 L ≠ sha256 N) :
    ∃ fs1, downloadComposeFile sha256 P (.response 200 N) fs
          = .ok (fs1, .args3 true true P.tempFilePath)
      ∧ fs1 P.composeFilePath = some L
      ∧ userConfirmation P false P.tempFilePath fs1 = .ok (fs1, false)
      ∧ ∃ fs2, userConfirmation P true P.tempFilePath fs1 = .ok (fs2, true)
          ∧ fs2 P.composeFilePath = some N := by
  have hP2 : P.composeFilePath ≠ P.tempFilePath := fun h => hP h.symm
  refine ⟨writeFileSync (writeFileSync fs P.tempFilePath []) P.tempFilePath N, ?_, ?_, ?_, ?_⟩
  · have h1 : (writeFileSync (writeFileSync fs P.tempFilePath []) P.tempFilePath N)
        P.composeFilePath = some L := by
      simp [writeFileSync, hP2, hL]
    have h2 : (writeFileSync (writeFileSync fs P.tempFilePath []) P.tempFilePath N)
        P.tempFilePath = some N := by
      simp [writeFileSync]
    simp only [downloadComposeFile, if_true]
    rw [compareComposeFiles_of_local h1 h2, if_neg hd]
  · simp [writeFileSync, hP2, hL]
  · simp [userConfirmation, pure, Except.pure]
  · refine ⟨fun q => if q = P.composeFilePath then some N else
      if q = P.tempFilePath then none
      else writeFileSync (writeFileSync fs P.tempFilePath []) P.tempFilePath N q, ?_, ?_⟩
    · simp [userConfirmation, renameSync, writeFileSync, bind, Except.bind, pure, Except.pure]
    · simp

/-- Witness for C1 on the sample filesystem: local manifest `[1, 2, 3]`,
downloaded content `[1, 2, 4]`. -/
theorem manifest_sync_keeps_local_until_confirmed_witness :
    (samplePaths.tempFilePath ≠ samplePaths.composeFilePath
      ∧ sampleManifestFs [1, 2, 3] samplePaths.composeFilePath = some [1, 2, 3]
      ∧ sampleDigest [1, 2, 3] ≠ sampleDigest [1, 2, 4])
    ∧ ∃ fs1, downloadComposeFile sampleDigest samplePaths (.response 200 [1, 2, 4])
            (sampleManifestFs [1, 2, 3])
          = .ok (fs1, .args3 true true samplePaths.tempFilePath)
      ∧ fs1 samplePaths.composeFilePath = some [1, 2, 3]
      ∧ userConfirmation samplePaths false samplePaths.tempFilePath fs1 = .ok (fs1, false)
      ∧ ∃ fs2, userConfirmation samplePaths true samplePaths.tempFilePath fs1 = .ok (fs2, true)
          ∧ fs2 samplePaths.composeFilePath = some [1, 2, 4] :=
  ⟨by decide, manifest_sync_keeps_local_until_confirmed sampleDigest samplePaths
    (sampleManifestFs [1, 2, 3]) [1, 2, 3] [1, 2, 4] (by decide) (by decide) (by decide)⟩

/-- When a local manifest exists and the new file has the same bytes,
`compareComposeFiles` reports `callback(true, false)`, whatever the digest
function is. -/
theorem compareComposeFiles_identical (sha256 : Bytes → String) (P : Paths)
    (newFilePath : String) (fs : FileSystem Bytes) (L : Bytes)
    (hL : fs P.composeFilePath = some L) (hN : fs newFilePath = some L) :
    compareComposeFiles sha256 P newFilePath fs = .ok (fs, .args2 true false) := by
  rw [compareComposeFiles_of_local hL hN, if_pos rfl]

/-- When a local manifest exists, `compareComposeFiles` reports
`callback(true, true, newFilePath)` exactly when the two digests differ. -/
theorem compareComposeFiles_needsConfirmation_iff (sha256 : Bytes → String) (P : Paths)
    (newFilePath : String) (fs : FileSystem Bytes) (L N : Bytes)
    (hL : fs P.composeFilePath = some L) (hN : fs newFilePath = some N) :
    compareComposeFiles sha256 P newFilePath fs = .ok (fs, .args3 true true newFilePath)
      ↔ sha256 L ≠ sha256 N := by
  rw [compareComposeFiles_of_local hL hN]
  by_cases h : sha256 L = sha256 N <;> simp [h]

/-! ## Reconciliation tick -/

theorem statusIncludes_of_defined {c : Container} (h : c.status.isSome) (m : String) :
    statusIncludes c m = .ok (hasMarker c m) := by
  unfold statusIncludes hasMarker
  cases hs : c.status with
  | none => simp [hs] at h
  | some s => rfl

theorem stoppedTest_of_defined {c : Container} (h : c.status.isSome) :
    stoppedTest c = .ok (hasMarker c "Exited" || hasMarker c "Created") := by
  unfold stoppedTest
  rw [statusIncludes_of_defined h, statusIncludes_of_defined h]
  cases hasMarker c "Exited" <;> rfl

theorem jsFilter_of_ok {α : Type} (p : α → Except JsError Bool) (q : α → Bool) :
    ∀ xs : List α, (∀ x ∈ xs, p x = .ok (q x)) → jsFilter p xs = .ok (xs.filter q)
  | [], _ => rfl
  | x :: xs, h => by
    have hx := h x (List.mem_cons_self _ _)
    have ih := jsFilter_of_ok p q xs (fun d hd => h d (List.mem_cons_of_mem _ hd))
    unfold jsFilter
    rw [hx, ih]
    cases hq : q x <;> simp [List.filter_cons, hq, bind, Except.bind, pure, Except.pure]

theorem jsEvery_of_ok {α : Type} (p : α → Except JsError Bool) (q : α → Bool) :
    ∀ xs : List α, (∀ x ∈ xs, p x = .ok (q x)) → jsEvery p xs = .ok (xs.all q)
  | [], _ => rfl
  | x :: xs, h => by
    have hx := h x (List.mem_cons_self _ _)
    have ih := jsEvery_of_ok p q xs (fun d hd => h d (List.mem_cons_of_mem _ hd))
    unfold jsEvery
    rw [hx]
    cases hq : q x <;> simp [hq, ih, bind, Except.bind, pure, Except.pure]

theorem jsFilter_of_error {α : Type} (p : α → Except JsError Bool) :
    ∀ xs : List α, (∃ x ∈ xs, ∃ e, p x = .error e) → ∃ e, jsFilter p xs = .error e
  | [], h => by simp at h
  | x :: xs, h => by
    cases hx : p x with
    | error e => exact ⟨e, by simp [jsFilter, hx, bind, Except.bind]⟩
    | ok b =>
      have h2 : ∃ d ∈ xs, ∃ e, p d = .error e := by
        obtain ⟨d, hd, e, hde⟩ := h
        rcases List.mem_cons.mp hd with rfl | hd
        · rw [hx] at hde; cases hde
        · exact ⟨d, hd, e, hde⟩
      obtain ⟨e, he⟩ := jsFilter_of_error p xs h2
      exact ⟨e, by simp [jsFilter, hx, he, bind, Except.bind]⟩

/-- The events of a tick on a listing in which every status is defined. -/
theorem reconcileTick_of_defined (cs : List Container) (h : ∀ c ∈ cs, c.status.isSome) :
    reconcileTick cs = .ok ((if cs.length == 0 || allTerminal cs then
        [⟨"update-buttons", "start"⟩]
      else if upCount cs == 4 then [⟨"update-buttons", "stop"⟩] else []) ++ [periodicLog cs]) := by
  unfold reconcileTick
  rw [jsEvery_of_ok stoppedTest _ cs (fun c hc => stoppedTest_of_defined (h c hc)),
    jsFilter_of_ok _ (fun c => hasMarker c "Up") cs
      (fun c hc => statusIncludes_of_defined (h c hc) "Up")]
  rfl

/-- A tick on a listing with an undefined status is left by an exception
before anything is sent. -/
theorem reconcileTick_of_undefined (cs : List Container) (h : ∃ c ∈ cs, c.status = none) :
    emitted (reconcileTick cs) = [] := by
  have h2 : ∃ c ∈ cs, ∃ e, statusIncludes c "Up" = .error e := by
    obtain ⟨c, hc, hs⟩ := h
    exact ⟨c, hc, .typeError "Cannot read properties of undefined (reading includes)",
      by simp [statusIncludes, hs]⟩
  obtain ⟨e, he⟩ := jsFilter_of_error (fun c => statusIncludes c "Up") cs h2
  unfold reconcileTick
  rw [he]
  cases jsEvery stoppedTest cs <;> rfl

theorem defined_or_undefined (cs : List Container) :
    (∀ c ∈ cs, c.status.isSome) ∨ ∃ c ∈ cs, c.status = none := by
  by_cases h : ∃ c ∈ cs, c.status = none
  · exact Or.inr h
  · left
    intro c hc
    cases hs : c.status with
    | none => exact absurd ⟨c, hc, hs⟩ h
    | some s => rfl

theorem defined_of_all {p : Container → Bool} (hp : ∀ c, p c = true → c.status.isSome)
    (cs : List Container) (h : cs.all p = true) : ∀ c ∈ cs, c.status.isSome := by
  intro c hc
  exact hp c (List.all_eq_true.mp h c hc)

theorem defined_of_hasMarker {c : Container} {m : String} (h : hasMarker c m = true) :
    c.status.isSome := by
  unfold hasMarker at h
  cases hs : c.status with
  | none => simp [hs] at h
  | some s => rfl

theorem upCount_of_allUp (cs : List Container) (h : allUp cs = true) :
    upCount cs = cs.length := by
  unfold upCount
  rw [List.filter_eq_self.mpr]
  exact fun c hc => List.all_eq_true.mp h c hc

/-- C3 (as stated) fails: five containers, four of them up and one
restarting, are neither all terminal nor four containers that are all up,
yet the tick sends `update-buttons` with `stop`. -/
theorem tick_other_mix_counterexample :
    ¬ ((sampleFiveContainers.length = 0 ∨ allTerminal sampleFiveContainers = true)
        ∨ (sampleFiveContainers.length = 4 ∧ allUp sampleFiveContainers = true))
    ∧ buttonEvents (emitted (reconcileTick sampleFiveContainers))
        = [⟨"update-buttons", "stop"⟩] := by
  decide

/-- C3 (amended): in a tick whose listing succeeded, if the containers are
neither (zero containers, or every status containing `Exited` or
`Created`) nor such that exactly four of them have a status containing
`Up`, then no `update-buttons` event is emitted; when every status is
defined the log line is the only event sent. -/
theorem tick_other_mix_no_buttons (cs : List Container)
    (hstop : ¬ (cs.length = 0 ∨ allTerminal cs = true)) (hup : upCount cs ≠ 4) :
    buttonEvents (emitted (reconcileTick cs)) = []
      ∧ ((∀ c ∈ cs, c.status.isSome) → reconcileTick cs = .ok [periodicLog cs]) := by
  have hb : (cs.length == 0 || allTerminal cs) = false := by
    cases h1 : cs.length == 0 <;> cases h2 : allTerminal cs <;> simp_all
  have hu : (upCount cs == 4) = false := by simpa using hup
  have key : (∀ c ∈ cs, c.status.isSome) → reconcileTick cs = .ok [periodicLog cs] := by
    intro hd
    rw [reconcileTick_of_defined cs hd, hb, hu]
    rfl
  refine ⟨?_, key⟩
  rcases defined_or_undefined cs with hd | hn
  · rw [key hd]
    rfl
  · rw [reconcileTick_of_undefined cs hn]
    rfl

/-- Witness for C3 (amended) on two containers up and one exited. -/
theorem tick_other_mix_no_buttons_witness :
    (¬ (sampleMixedContainers.length = 0 ∨ allTerminal sampleMixedContainers = true)
      ∧ upCount sampleMixedContainers ≠ 4)
    ∧ (buttonEvents (emitted (reconcileTick sampleMixedContainers)) = []
      ∧ ((∀ c ∈ sampleMixedContainers, c.status.isSome) →
          reconcileTick sampleMixedContainers = .ok [periodicLog sampleMixedContainers])) :=
  ⟨by decide, tick_other_mix_no_buttons sampleMixedContainers (by decide) (by decide)⟩

/-- C4: in a tick whose listing succeeded, if the listing has zero
containers or every status contains `Exited` or `Created`, the tick sends
`update-buttons` with `start`, followed by the log line, and no
`update-buttons` event with `stop`. -/
theorem tick_all_stopped_emits_start (cs : List Container)
    (h : cs.length = 0 ∨ allTerminal cs = true) :
    reconcileTick cs = .ok [⟨"update-buttons", "start"⟩, periodicLog cs]
      ∧ buttonEvents (emitted (reconcileTick cs)) = [⟨"update-buttons", "start"⟩]
      ∧ (⟨"update-buttons", "stop"⟩ : Event) ∉ emitted (reconcileTick cs) := by
  have hd : ∀ c ∈ cs, c.status.isSome := by
    rcases h with h | h
    · intro c hc
      rw [List.length_eq_zero.mp h] at hc
      cases hc
    · refine defined_of_all (fun c hc => ?_) cs h
      rcases Bool.or_eq_true _ _ ▸ hc with h1 | h1 <;> exact defined_of_hasMarker h1
  have hb : (cs.length == 0 || allTerminal cs) = true := by
    rcases h with h | h <;> simp [h]
  have key : reconcileTick cs = .ok [⟨"update-buttons", "start"⟩, periodicLog cs] := by
    rw [reconcileTick_of_defined cs hd, hb]
    rfl
  refine ⟨key, ?_, ?_⟩
  · rw [key]
    rfl
  · rw [key]
    simp [emitted, periodicLog]

/-- Witness for C4 on two stopped containers. -/
theorem tick_all_stopped_emits_start_witness :
    (sampleStoppedContainers.length = 0 ∨ allTerminal sampleStoppedContainers = true)
    ∧ (reconcileTick sampleStoppedContainers
          = .ok [⟨"update-buttons", "start"⟩, periodicLog sampleStoppedContainers]
      ∧ buttonEvents (emitted (reconcileTick sampleStoppedContainers))
          = [⟨"update-buttons", "start"⟩]
      ∧ (⟨"update-buttons", "stop"⟩ : Event) ∉ emitted (reconcileTick sampleStoppedContainers)) :=
  ⟨by decide, tick_all_stopped_emits_start sampleStoppedContainers (by decide)⟩

/-- C5 (as stated) fails: four containers whose status contains `Up` and
also `Created` make the tick send `start`, and no `stop`. -/
theorem tick_four_up_counterexample :
    sampleUpAndCreated.length = 4 ∧ allUp sampleUpAndCreated = true
    ∧ buttonEvents (emitted (reconcileTick sampleUpAndCreated))
        = [⟨"update-buttons", "start"⟩] := by
  decide

/-- C5 (amended): in a tick whose listing succeeded, if the listing has
exactly four containers, every status contains `Up`, and not every status
contains `Exited` or `Created`, the tick sends `update-buttons` with
`stop`, followed by the log line. -/
theorem tick_four_up_emits_stop (cs : List Container)
    (hlen : cs.length = 4) (hup : allUp cs = true) (hterm : allTerminal cs = false) :
    reconcileTick cs = .ok [⟨"update-buttons", "stop"⟩, periodicLog cs]
      ∧ buttonEvents (emitted (reconcileTick cs)) = [⟨"update-buttons", "stop"⟩] := by
  have hd : ∀ c ∈ cs, c.status.isSome :=
    defined_of_all (fun c hc => defined_of_hasMarker hc) cs hup
  have hb : (cs.length == 0 || allTerminal cs) = false := by simp [hlen, hterm]
  have hu : (upCount cs == 4) = true := by simp [upCount_of_allUp cs hup, hlen]
  have key : reconcileTick cs = .ok [⟨"update-buttons", "stop"⟩, periodicLog cs] := by
    rw [reconcileTick_of_defined cs hd, hb, hu]
    rfl
  refine ⟨key, ?_⟩
  rw [key]
  rfl

/-- Witness for C5 (amended) on four containers that are up. -/
theorem tick_four_up_emits_stop_witness :
    (sampleFourUp.length = 4 ∧ allUp sampleFourUp = true ∧ allTerminal sampleFourUp = false)
    ∧ (reconcileTick sampleFourUp = .ok [⟨"update-buttons", "stop"⟩, periodicLog sampleFourUp]
      ∧ buttonEvents (emitted (reconcileTick sampleFourUp)) = [⟨"update-buttons", "stop"⟩]) :=
  ⟨by decide, tick_four_up_emits_stop sampleFourUp (by decide) (by decide) (by decide)⟩

/-! ## Environment file -/

theorem linesOfChars_of_no_newline : ∀ l : List Char, '\n' ∉ l → linesOfChars l = [l]
  | [], _ => rfl
  | c :: cs, h => by
    have hc : c ≠ '\n' := fun e => h (e ▸ List.mem_cons_self _ _)
    have ih := linesOfChars_of_no_newline cs (fun m => h (List.mem_cons_of_mem _ m))
    simp [linesOfChars, hc, ih]

theorem linesOfChars_append_newline :
    ∀ (l rest : List Char), '\n' ∉ l →
      linesOfChars (l ++ '\n' :: rest) = l :: linesOfChars rest
  | [], rest, _ => by simp [linesOfChars]
  | c :: cs, rest, h => by
    have hc : c ≠ '\n' := fun e => h (e ▸ List.mem_cons_self _ _)
    have ih := linesOfChars_append_newline cs rest (fun m => h (List.mem_cons_of_mem _ m))
    simp [linesOfChars, hc, ih]

theorem jsJoin_newline_cons (x y : String) (rest : List String) :
    (jsJoin "\n" (x :: y :: rest)).data = x.data ++ '\n' :: (jsJoin "\n" (y :: rest)).data := by
  simp [jsJoin, String.data_append]

/-- The lines of a joined text are the joined strings, when none of them
contains a line feed. -/
theorem linesOf_jsJoin : ∀ ls : List String, ls ≠ [] → (∀ l ∈ ls, '\n' ∉ l.data) →
    linesOf (jsJoin "\n" ls) = ls
  | [], h, _ => absurd rfl h
  | [x], _, hn => by
    have := linesOfChars_of_no_newline x.data (hn x (List.mem_singleton.mpr rfl))
    simp [linesOf, jsJoin, this]
  | x :: y :: rest, _, hn => by
    have ih := linesOf_jsJoin (y :: rest) (by simp)
      (fun l hl => hn l (List.mem_cons_of_mem _ hl))
    have hx := hn x (List.mem_cons_self _ _)
    unfold linesOf at ih ⊢
    rw [jsJoin_newline_cons, linesOfChars_append_newline _ _ hx, List.map_cons, ih]

theorem envLine_data (kv : String × String) :
    (envLine kv).data = kv.1.data ++ '=' :: kv.2.data := by
  simp [envLine, String.data_append]

theorem takeWhile_ne_append (c : Char) :
    ∀ (l rest : List Char), c ∉ l →
      (l ++ c :: rest).takeWhile (fun x => x != c) = l
  | [], rest, _ => by simp [List.takeWhile]
  | d :: ds, rest, h => by
    have hd : d ≠ c := fun e => h (e ▸ List.mem_cons_self _ _)
    have ih := takeWhile_ne_append c ds rest (fun m => h (List.mem_cons_of_mem _ m))
    have hb : (d != c) = true := by simpa using hd
    rw [List.cons_append, List.takeWhile_cons, hb, if_pos rfl, ih]

theorem keyOfLine_envLine (kv : String × String) (h : '=' ∉ kv.1.data) :
    keyOfLine (envLine kv) = kv.1 := by
  unfold keyOfLine
  rw [envLine_data, takeWhile_ne_append '=' _ _ h]

theorem filter_key_of_nodup (k : String) :
    ∀ env : EnvMap, (env.map Prod.fst).Nodup → ∀ kv ∈ env, kv.1 = k →
      env.filter (fun e => e.1 == k) = [kv]
  | [], _, kv, h, _ => by cases h
  | e :: es, hnd, kv, hmem, hk => by
    rw [List.map_cons, List.nodup_cons] at hnd
    rcases List.mem_cons.mp hmem with rfl | hin
    · have : es.filter (fun e => e.1 == k) = [] := by
        rw [List.filter_eq_nil_iff]
        intro a ha hak
        have hak2 : a.1 = k := by simpa using hak
        exact hnd.1 (by rw [hk, ← hak2]; exact List.mem_map_of_mem _ ha)
      simp [List.filter_cons, hk, this]
    · have hne : e.1 ≠ k := by
        intro hek
        exact hnd.1 (by rw [hek, ← hk]; exact List.mem_map_of_mem _ hin)
      have ih := filter_key_of_nodup k es hnd.2 kv hin hk
      simp [List.filter_cons, hne, ih]

/-- C7 (as stated) fails: with `AR_IO_WALLET` in the existing file and an
update that only sets `OBSERVER_WALLET`, the file written by `saveEnv` has
no line for `AR_IO_WALLET`. -/
theorem saveEnv_drops_other_keys_counterexample :
    linesDefining "AR_IO_WALLET=abc\nOTHER_ENV_VARIABLE=default_value" "AR_IO_WALLET"
        = ["AR_IO_WALLET=abc"]
    ∧ (saveEnv samplePaths [("OBSERVER_WALLET", "xyz")]
        (sampleEnvFs "AR_IO_WALLET=abc\nOTHER_ENV_VARIABLE=default_value"))
        samplePaths.envFilePath = some "OBSERVER_WALLET=xyz"
    ∧ linesDefining "OBSERVER_WALLET=xyz" "AR_IO_WALLET" = [] := by
  decide

/-- C7 (amended): for every existing environment file and every update
mapping (distinct keys without `=` or line feed, values without line
feed), the file written by `saveEnv` is the text of the update alone: each
key of the update is defined by exactly one line, `key=value` with its new
value, the lines of the file are exactly the lines of the update in its
key order, and no other file is touched. -/
theorem saveEnv_writes_exactly_update (P : Paths) (env : EnvMap) (fs : FileSystem String)
    (hnd : (env.map Prod.fst).Nodup)
    (hk : ∀ kv ∈ env, '=' ∉ kv.1.data ∧ '\n' ∉ kv.1.data)
    (hv : ∀ kv ∈ env, '\n' ∉ kv.2.data) :
    (saveEnv P env fs) P.envFilePath = some (envString env)
      ∧ (∀ q, q ≠ P.envFilePath → saveEnv P env fs q = fs q)
      ∧ (∀ kv ∈ env, linesDefining (envString env) kv.1 = [envLine kv])
      ∧ (env ≠ [] → linesOf (envString env) = env.map envLine) := by
  have hlines : env ≠ [] → linesOf (envString env) = env.map envLine := by
    intro hne
    refine linesOf_jsJoin _ (by simpa using hne) ?_
    intro l hl
    obtain ⟨kv, hkv, rfl⟩ := List.mem_map.mp hl
    rw [envLine_data]
    intro hmem
    rcases List.mem_append.mp hmem with h1 | h1
    · exact (hk kv hkv).2 h1
    · rcases List.mem_cons.mp h1 with h2 | h2
      · cases h2
      · exact hv kv hkv h2
  refine ⟨by simp [saveEnv, writeFileSync], fun q hq => by simp [saveEnv, writeFileSync, hq],
    ?_, hlines⟩
  intro kv hkv
  have hne : env ≠ [] := fun h => by rw [h] at hkv; cases hkv
  unfold linesDefining
  rw [hlines hne, List.filter_map]
  have hfun : ∀ e ∈ env, ((fun l : String => l.data.contains '=' && keyOfLine l == kv.1)
      ∘ envLine) e = (fun e : String × String => e.1 == kv.1) e := by
    intro e he
    simp only [Function.comp]
    rw [keyOfLine_envLine e (hk e he).1, envLine_data]
    simp
  rw [List.filter_congr hfun, filter_key_of_nodup kv.1 env hnd kv hkv rfl]
  rfl

/-- Witness for C7 (amended) on an update with two keys. -/
theorem saveEnv_writes_exactly_update_witness :
    ((sampleUpdate.map Prod.fst).Nodup
      ∧ (∀ kv ∈ sampleUpdate, '=' ∉ kv.1.data ∧ '\n' ∉ kv.1.data)
      ∧ (∀ kv ∈ sampleUpdate, '\n' ∉ kv.2.data))
    ∧ ((saveEnv samplePaths sampleUpdate (sampleEnvFs "AR_IO_WALLET=abc"))
          samplePaths.envFilePath = some (envString sampleUpdate)
      ∧ (∀ q, q ≠ samplePaths.envFilePath →
          saveEnv samplePaths sampleUpdate (sampleEnvFs "AR_IO_WALLET=abc") q
            = sampleEnvFs "AR_IO_WALLET=abc" q)
      ∧ (∀ kv ∈ sampleUpdate, linesDefining (envString sampleUpdate) kv.1 = [envLine kv])
      ∧ (sampleUpdate ≠ [] → linesOf (envString sampleUpdate) = sampleUpdate.map envLine)) :=
  ⟨by decide, saveEnv_writes_exactly_update samplePaths sampleUpdate
    (sampleEnvFs "AR_IO_WALLET=abc") (by decide) (by decide) (by decide)⟩

/-- The scan of the replacement never runs out of fuel: every amount of
fuel above the length of the text still to scan gives the same result. -/
theorem replaceObserverWalletFrom_fuel (replacement : List Char) :
    ∀ (fuel1 fuel2 : Nat) (before s : List Char), s.length < fuel1 → s.length < fuel2 →
      replaceObserverWalletFrom replacement fuel1 before s
        = replaceObserverWalletFrom replacement fuel2 before s
  | 0, _, _, _, h1, _ => absurd h1 (Nat.not_lt_zero _)
  | _ + 1, 0, _, _, _, h2 => absurd h2 (Nat.not_lt_zero _)
  | _ + 1, _ + 1, _, [], _, _ => rfl
  | f1 + 1, f2 + 1, before, c :: cs, h1, h2 => by
    have hlen : ((c :: cs).drop observerWalletKey.length).length ≤ cs.length := by
      simp [observerWalletKey]
    have hrest : (((c :: cs).drop observerWalletKey.length).dropWhile
        (fun x => !isLineTerminator x)).length ≤ cs.length :=
      Nat.le_trans (List.Sublist.length_le (List.dropWhile_sublist _)) hlen
    simp only [List.length_cons] at h1 h2
    unfold replaceObserverWalletFrom
    split
    · simp only
      rw [replaceObserverWalletFrom_fuel replacement f1 f2 _ _ (by omega) (by omega)]
    · rw [replaceObserverWalletFrom_fuel replacement f1 f2 _ cs (by omega) (by omega)]

/-- C6: the `'load-wallet'` upsert misses its goal on an environment file
that mentions `OBSERVER_WALLET` without defining it (the guard
`includes('OBSERVER_WALLET')` holds, the pattern `OBSERVER_WALLET=.*` has
no match): the file is written back unchanged, with no line defining
`OBSERVER_WALLET`.  On a file with another key ending in `OBSERVER_WALLET`
the unanchored pattern rewrites the line of that key too. -/
theorem load_wallet_upsert_misses :
    jsIncludes sampleEnvMention "OBSERVER_WALLET" = true
    ∧ (loadWalletEnv samplePaths sampleAddress (sampleEnvFs sampleEnvMention))
        samplePaths.envFilePath = some sampleEnvMention
    ∧ linesDefining sampleEnvMention "OBSERVER_WALLET" = []
    ∧ (loadWalletEnv samplePaths sampleAddress (sampleEnvFs sampleEnvTwoKeys))
        samplePaths.envFilePath
        = some ("BACKUP_OBSERVER_WALLET=" ++ sampleAddress ++ "\nOBSERVER_WALLET=" ++ sampleAddress) := by
  decide

/-! ## Proxy deployment -/

theorem mem_andThen_of_mem {a : Settled} (f : Unit → Settled) {x : Step} (h : x ∈ a.trace) :
    x ∈ (a.andThen f).trace := by
  unfold Settled.andThen
  cases a.rejected <;> simp [h]

theorem mem_andThen {a : Settled} {f : Unit → Settled} {x : Step}
    (h : x ∈ (a.andThen f).trace) : x ∈ a.trace ∨ x ∈ (f ()).trace := by
  unfold Settled.andThen at h
  cases hr : a.rejected <;> simp [hr] at h
  · exact h
  · exact Or.inl h

theorem not_mem_andThen {a : Settled} {f : Unit → Settled} {x : Step}
    (ha : x ∉ a.trace) (hf : x ∉ (f ()).trace) : x ∉ (a.andThen f).trace :=
  fun h => (mem_andThen h).elim ha hf

theorem not_mem_awaitStage (o : Outcomes) {s t : Stage} (b : Bool) (h : s ≠ t) :
    Step.settled t b ∉ (awaitStage o s).trace := by
  simp [awaitStage, h.symm]

theorem awaitStage_update (o : Outcomes) (b : Bool) {s : Stage} (h : s ≠ .launchContainer) :
    awaitStage (Function.update o .launchContainer b) s = awaitStage o s := by
  simp [awaitStage, Function.update, h]

theorem startNginxContainer_resolves (o : Outcomes) :
    (startNginxContainer o).rejected = none := rfl

theorem deployNginxContainer_trace (o : Outcomes) :
    (deployNginxContainer o).trace = (startNginxContainer o).trace
      ++ ((runCertbotSequentially o).andThen fun _ => updateNginxConfigWithSSL o).trace := by
  simp [deployNginxContainer, Settled.catchAndLog, Settled.andThen, startNginxContainer_resolves]

/-- C8: a failed stage of `startNginxContainer` does not halt
`deployNginxContainer`.  `startNginxContainer` resolves for every outcome
of its steps, so the certificate issuance is begun for every outcome; the
launch command is never awaited, so its outcome changes nothing in what
the deployment does; and when the creation of the directories fails, both
certificate runs, the TLS configuration rewrite and the reload are still
executed. -/
theorem deploy_continues_after_failed_stage :
    (∀ o, (startNginxContainer o).rejected = none)
    ∧ (∀ o, Step.began .publicIp ∈ (deployNginxContainer o).trace)
    ∧ (∀ o b, deployNginxContainer (Function.update o .launchContainer b)
        = deployNginxContainer o)
    ∧ (∀ o b, Step.settled .launchContainer b ∉ (deployNginxContainer o).trace)
    ∧ (deployNginxContainer directoriesFail).trace =
        [.began .createDirectories, .settled .createDirectories false,
         .began .publicIp, .settled .publicIp true,
         .began .certbotBase, .settled .certbotBase true,
         .began .certbotWildcard, .settled .certbotWildcard true,
         .began .writeSslConfig, .settled .writeSslConfig true,
         .began .reloadNginx, .settled .reloadNginx true] := by
  refine ⟨startNginxContainer_resolves, ?_, ?_, ?_, by decide⟩
  · intro o
    rw [deployNginxContainer_trace]
    refine List.mem_append_right _ (mem_andThen_of_mem _ ?_)
    unfold runCertbotSequentially
    exact mem_andThen_of_mem _ (by simp [awaitStage])
  · intro o b
    unfold deployNginxContainer startNginxContainer runCertbotSequentially
      updateNginxConfigWithSSL
    simp only [awaitStage_update o b (by decide : Stage.createDirectories ≠ .launchContainer),
      awaitStage_update o b (by decide : Stage.createDockerfile ≠ .launchContainer),
      awaitStage_update o b (by decide : Stage.createDockerComposeFile ≠ .launchContainer),
      awaitStage_update o b (by decide : Stage.createNginxConfig ≠ .launchContainer),
      awaitStage_update o b (by decide : Stage.createDNSUpdateScript ≠ .launchContainer),
      awaitStage_update o b (by decide : Stage.createDNSCleanupScript ≠ .launchContainer),
      awaitStage_update o b (by decide : Stage.publicIp ≠ .launchContainer),
      awaitStage_update o b (by decide : Stage.certbotBase ≠ .launchContainer),
      awaitStage_update o b (by decide : Stage.certbotWildcard ≠ .launchContainer),
      awaitStage_update o b (by decide : Stage.writeSslConfig ≠ .launchContainer),
      awaitStage_update o b (by decide : Stage.reloadNginx ≠ .launchContainer)]
  · intro o b
    rw [deployNginxContainer_trace]
    intro h
    rcases List.mem_append.mp h with h | h
    · revert h
      unfold startNginxContainer Settled.catchAndLog
      refine not_mem_andThen (not_mem_awaitStage o b (by decide)) ?_
      refine not_mem_andThen (not_mem_awaitStage o b (by decide)) ?_
      refine not_mem_andThen (not_mem_awaitStage o b (by decide)) ?_
      refine not_mem_andThen (not_mem_awaitStage o b (by decide)) ?_
      refine not_mem_andThen (not_mem_awaitStage o b (by decide)) ?_
      refine not_mem_andThen (not_mem_awaitStage o b (by decide)) ?_
      simp
    · revert h
      unfold runCertbotSequentially updateNginxConfigWithSSL
      refine not_mem_andThen ?_ ?_
      · refine not_mem_andThen (not_mem_awaitStage o b (by decide)) ?_
        exact not_mem_andThen (not_mem_awaitStage o b (by decide))
          (not_mem_awaitStage o b (by decide))
      · exact not_mem_andThen (not_mem_awaitStage o b (by decide))
          (not_mem_awaitStage o b (by decide))

/-- C9: the `'deploy-nginx'` handler sends the success message for every
outcome of the stages, because `deployNginxContainer` never rejects; the
`catch` branch of the handler is never taken.  In particular the success
message is sent when the certificate run for the base domain fails. -/
theorem deploy_handler_always_reports_success :
    (∀ message o, deployNginxHandler message o = ⟨"docker-logs", deploySuccessMessage⟩)
    ∧ someStageFailed certbotBaseFails = true
    ∧ Step.settled .certbotBase false ∈ (deployNginxContainer certbotBaseFails).trace
    ∧ Step.began .certbotWildcard ∉ (deployNginxContainer certbotBaseFails).trace := by
  refine ⟨fun message o => rfl, by decide, by decide, by decide⟩

/-! ## Runtime check -/

/-- C10: when the version probe returns before the 10 s timeout,
`checkDockerInstalled` invokes its callback once, with `true` exactly when
the version probe succeeds and either the first daemon probe succeeds or
the start command succeeds and the re-probe succeeds; the start command is
issued at most once and the daemon probe at most twice, a second probe
only in the sequence start command, 5 s wait, probe; and when the version
probe succeeds and the daemon is still inactive the callback gets
`'Docker daemon failed to start.'` and `false`. -/
theorem checkDockerInstalled_ready_iff (w : Probes) (t : Nat)
    (ht : w.versionReturnsAt = some t) (hlt : t < 10000) :
    ∃ msg ready, (checkDockerInstalled w).1 = [(msg, ready)]
      ∧ (ready = true ↔
          w.versionOk = true ∧ (w.info 0 = true ∨ (w.start 0 = true ∧ w.info 1 = true)))
      ∧ (checkDockerInstalled w).2.log.count .startDesktop ≤ 1
      ∧ (checkDockerInstalled w).2.log.count .dockerInfo ≤ 2
      ∧ ((checkDockerInstalled w).2.log.count .dockerInfo = 2 →
          (checkDockerInstalled w).2.log
            = [.dockerVersion, .dockerInfo, .startDesktop, .wait 5000, .dockerInfo])
      ∧ (w.versionOk = true → w.info 0 = false → ¬ (w.start 0 = true ∧ w.info 1 = true) →
          msg = "Docker daemon failed to start." ∧ ready = false) := by
  obtain ⟨vr, vok, info, start⟩ := w
  simp only at ht
  subst ht
  cases hv : vok
  · exact ⟨"Docker is not installed.", false, by
      simp [checkDockerInstalled, onVersionResult, hlt, hv], by simp, by
      simp [checkDockerInstalled, onVersionResult, hlt, hv], by
      simp [checkDockerInstalled, onVersionResult, hlt, hv], by
      simp [checkDockerInstalled, onVersionResult, hlt, hv], by simp⟩
  · cases h0 : info 0
    · cases hs : start 0
      · exact ⟨"Docker daemon failed to start.", false, by
          simp [checkDockerInstalled, onVersionResult, checkDockerDaemonRunning,
            startDockerDaemon, hlt, hv, h0, hs], by simp [h0, hs], by
          simp [checkDockerInstalled, onVersionResult, checkDockerDaemonRunning,
            startDockerDaemon, hlt, hv, h0, hs], by
          simp [checkDockerInstalled, onVersionResult, checkDockerDaemonRunning,
            startDockerDaemon, hlt, hv, h0, hs], by
          simp [checkDockerInstalled, onVersionResult, checkDockerDaemonRunning,
            startDockerDaemon, hlt, hv, h0, hs], by simp⟩
      · cases h1 : info 1
        · exact ⟨"Docker daemon failed to start.", false, by
            simp [checkDockerInstalled, onVersionResult, checkDockerDaemonRunning,
              startDockerDaemon, hlt, hv, h0, hs, h1], by simp [h0, hs, h1], by
            simp [checkDockerInstalled, onVersionResult, checkDockerDaemonRunning,
              startDockerDaemon, hlt, hv, h0, hs, h1], by
            simp [checkDockerInstalled, onVersionResult, checkDockerDaemonRunning,
              startDockerDaemon, hlt, hv, h0, hs, h1], by
            simp [checkDockerInstalled, onVersionResult, checkDockerDaemonRunning,
              startDockerDaemon, hlt, hv, h0, hs, h1], by simp⟩
        · exact ⟨"Docker daemon started successfully.", true, by
            simp [checkDockerInstalled, onVersionResult, checkDockerDaemonRunning,
              startDockerDaemon, hlt, hv, h0, hs, h1], by simp [h0, hs, h1], by
            simp [checkDockerInstalled, onVersionResult, checkDockerDaemonRunning,
              startDockerDaemon, hlt, hv, h0, hs, h1], by
            simp [checkDockerInstalled, onVersionResult, checkDockerDaemonRunning,
              startDockerDaemon, hlt, hv, h0, hs, h1], by
            simp [checkDockerInstalled, onVersionResult, checkDockerDaemonRunning,
              startDockerDaemon, hlt, hv, h0, hs, h1], by simp [hs, h1]⟩
    · exact ⟨"Docker is installed and running.", true, by
        simp [checkDockerInstalled, onVersionResult, checkDockerDaemonRunning, hlt, hv, h0],
        by simp [h0], by
        simp [checkDockerInstalled, onVersionResult, checkDockerDaemonRunning, hlt, hv, h0], by
        simp [checkDockerInstalled, onVersionResult, checkDockerDaemonRunning, hlt, hv, h0], by
        simp [checkDockerInstalled, onVersionResult, checkDockerDaemonRunning, hlt, hv, h0],
        by simp [h0]⟩

/-- Witness for C10: the daemon is down at first and up after the start
command. -/
theorem checkDockerInstalled_ready_iff_witness :
    (sampleProbes.versionReturnsAt = some 120 ∧ 120 < 10000)
    ∧ ∃ msg ready, (checkDockerInstalled sampleProbes).1 = [(msg, ready)]
      ∧ (ready = true ↔ sampleProbes.versionOk = true
          ∧ (sampleProbes.info 0 = true
            ∨ (sampleProbes.start 0 = true ∧ sampleProbes.info 1 = true)))
      ∧ (checkDockerInstalled sampleProbes).2.log.count .startDesktop ≤ 1
      ∧ (checkDockerInstalled sampleProbes).2.log.count .dockerInfo ≤ 2
      ∧ ((checkDockerInstalled sampleProbes).2.log.count .dockerInfo = 2 →
          (checkDockerInstalled sampleProbes).2.log
            = [.dockerVersion, .dockerInfo, .startDesktop, .wait 5000, .dockerInfo])
      ∧ (sampleProbes.versionOk = true → sampleProbes.info 0 = false →
          ¬ (sampleProbes.start 0 = true ∧ sampleProbes.info 1 = true) →
          msg = "Docker daemon failed to start." ∧ ready = false) :=
  ⟨⟨rfl, by decide⟩, checkDockerInstalled_ready_iff sampleProbes 120 rfl (by decide)⟩

/-! ## Container check -/

theorem checkDockerContainers_flapping (fuel : Nat) :
    ∀ r : CheckRun, r.infoCalls % 2 = 0 → checkDockerContainers flappingProbes fuel r = none := by
  induction fuel with
  | zero => intro r _; rfl
  | succ n ih =>
    intro r hr
    have h1 : ((r.infoCalls + 1) % 2 == 1) = true := by
      have : (r.infoCalls + 1) % 2 = 1 := by omega
      simp [this]
    have h0 : (r.infoCalls % 2 == 1) = false := by simp [hr]
    unfold checkDockerContainers
    simp only [flappingProbes, isDockerRunning, startDocker, h0, h1, Bool.not_true,
      Bool.false_eq_true, if_false, if_true]
    exact ih _ (by show (r.infoCalls + 1 + 1) % 2 = 0; omega)

/-- C11: one invocation of `checkDockerContainers` can issue the start
command more than once.  When the daemon is down at the first check, up
after the start, and down again at the re-check, the re-run of the whole
function starts the runtime a second time before the callback is invoked;
and when the daemon is down at every check and up after every start, the
callback is not invoked within any number of re-runs. -/
theorem checkDockerContainers_restarts_again :
    (checkDockerContainers twiceDownProbes 3 freshCheck).map
        (fun x => (x.1, x.2.startCalls, x.2.log.count .startDesktop, x.2.infoCalls))
      = some (.success [⟨"core", some "Up 2 hours"⟩, ⟨"envoy", some "Up 2 hours"⟩], 2, 2, 5)
    ∧ checkDockerContainers twiceDownProbes 2 freshCheck = none
    ∧ (∀ fuel, checkDockerContainers flappingProbes fuel freshCheck = none) := by
  refine ⟨by decide, by decide, fun fuel => ?_⟩
  exact checkDockerContainers_flapping fuel freshCheck rfl

/-! ## Runtime installation -/

/-- C12 (as stated) fails: when the download succeeds and the installer
command succeeds, the downloaded installer is still at the temp path when
the callback is invoked with `true`. -/
theorem installDocker_keeps_installer_counterexample :
    (installDocker sampleInstallerPath (.response 200 [77, 90]) true (fun _ => none)).2 = true
    ∧ (installDocker sampleInstallerPath (.response 200 [77, 90]) true (fun _ => none)).1
        sampleInstallerPath = some [77, 90] := by
  decide

/-- C12 (amended): on the transport-error exit path of `installDocker` the
temporary installer file no longer exists once the callback has been
invoked (with `false`); on the two exit paths through the installer
command (failed or succeeded) the callback gets the outcome of the command
and the downloaded installer is still at the temp path. -/
theorem installDocker_temp_file (installerPath : String) (fs : FileSystem Bytes) :
    (∀ message installerOk,
        (installDocker installerPath (.error message) installerOk fs).2 = false
        ∧ (installDocker installerPath (.error message) installerOk fs).1 installerPath = none)
    ∧ (∀ body installerOk,
        (installDocker installerPath (.response 200 body) installerOk fs).2 = installerOk
        ∧ (installDocker installerPath (.response 200 body) installerOk fs).1 installerPath
            = some body) := by
  constructor
  · intro message installerOk
    simp [installDocker, unlink]
  · intro body installerOk
    simp [installDocker, runInstaller, writeFileSync]

/-! ## Manifest synchronisation, the other branches -/

/-- C13 (as stated) fails: with a local manifest and a temporary copy of
the same bytes (so of the same digest, whatever the digest function),
`compareComposeFiles` reports `callback(true, false)` and the temporary
copy is still there. -/
theorem compare_same_digest_keeps_temp_counterexample :
    (compareComposeFiles sampleDigest samplePaths samplePaths.tempFilePath
        sampleSameFs).toOption.map
        (fun x => (x.2, x.1 samplePaths.tempFilePath, x.1 samplePaths.composeFilePath))
      = some (.args2 true false, some [1, 2, 3], some [1, 2, 3]) := by
  decide

/-- C13 (amended): when a local manifest exists and the temporary copy has
the same digest, `compareComposeFiles` reports `callback(true, false)` and
changes no file: the local manifest is unchanged and the temporary copy
stays at the temporary path. -/
theorem compare_same_digest_changes_nothing (sha256 : Bytes → String) (P : Paths)
    (newFilePath : String) (fs : FileSystem Bytes) (L N : Bytes)
    (hL : fs P.composeFilePath = some L) (hN : fs newFilePath = some N)
    (hd : sha256 L = sha256 N) :
    compareComposeFiles sha256 P newFilePath fs = .ok (fs, .args2 true false)
      ∧ fs P.composeFilePath = some L ∧ fs newFilePath = some N := by
  refine ⟨?_, hL, hN⟩
  rw [compareComposeFiles_of_local hL hN, if_pos hd]

/-- Witness for C13 (amended) on the sample filesystem with two equal
files. -/
theorem compare_same_digest_changes_nothing_witness :
    (sampleSameFs samplePaths.composeFilePath = some [1, 2, 3]
      ∧ sampleSameFs samplePaths.tempFilePath = some [1, 2, 3]
      ∧ sampleDigest [1, 2, 3] = sampleDigest [1, 2, 3])
    ∧ (compareComposeFiles sampleDigest samplePaths samplePaths.tempFilePath sampleSameFs
          = .ok (sampleSameFs, .args2 true false)
      ∧ sampleSameFs samplePaths.composeFilePath = some [1, 2, 3]
      ∧ sampleSameFs samplePaths.tempFilePath = some [1, 2, 3]) :=
  ⟨by decide, compare_same_digest_changes_nothing sampleDigest samplePaths
    samplePaths.tempFilePath sampleSameFs [1, 2, 3] [1, 2, 3] (by decide) (by decide) rfl⟩

/-- C14: when no local manifest exists, `compareComposeFiles` renames the
downloaded copy to the local manifest path and reports
`callback(true, false)`: afterwards the local manifest path holds the
downloaded content, the temporary path holds no file, and every other path
is as before. -/
theorem compare_promotes_when_no_local (sha256 : Bytes → String) (P : Paths)
    (newFilePath : String) (fs : FileSystem Bytes) (N : Bytes)
    (hL : fs P.composeFilePath = none) (hN : fs newFilePath = some N) :
    ∃ fs1, compareComposeFiles sha256 P newFilePath fs = .ok (fs1, .args2 true false)
      ∧ fs1 P.composeFilePath = some N
      ∧ fs1 newFilePath = none
      ∧ ∀ q, q ≠ P.composeFilePath → q ≠ newFilePath → fs1 q = fs q := by
  have hne : newFilePath ≠ P.composeFilePath := by
    intro h
    rw [h, hL] at hN
    cases hN
  refine ⟨fun q => if q = P.composeFilePath then some N else
    if q = newFilePath then none else fs q, ?_, ?_, ?_, ?_⟩
  · simp [compareComposeFiles, existsSync, hL, renameSync, hN, bind, Except.bind, pure,
      Except.pure]
  · simp
  · simp [hne]
  · intro q h1 h2
    simp [h1, h2]

/-- Witness for C14 on the sample filesystem that holds only the temporary
copy. -/
theorem compare_promotes_when_no_local_witness :
    (sampleTempOnlyFs samplePaths.composeFilePath = none
      ∧ sampleTempOnlyFs samplePaths.tempFilePath = some [1, 2, 4])
    ∧ ∃ fs1, compareComposeFiles sampleDigest samplePaths samplePaths.tempFilePath
          sampleTempOnlyFs = .ok (fs1, .args2 true false)
      ∧ fs1 samplePaths.composeFilePath = some [1, 2, 4]
      ∧ fs1 samplePaths.tempFilePath = none
      ∧ ∀ q, q ≠ samplePaths.composeFilePath → q ≠ samplePaths.tempFilePath →
          fs1 q = sampleTempOnlyFs q :=
  ⟨by decide, compare_promotes_when_no_local sampleDigest samplePaths
    samplePaths.tempFilePath sampleTempOnlyFs [1, 2, 4] (by decide) (by decide)⟩

/-- The callback of `compareComposeFiles` is never `callback(false)`: its
first argument is always `true`. -/
theorem compareComposeFiles_never_args1 (sha256 : Bytes → String) (P : Paths)
    (newFilePath : String) (fs fs1 : FileSystem Bytes) (b : Bool) :
    compareComposeFiles sha256 P newFilePath fs ≠ .ok (fs1, .args1 b) := by
  unfold compareComposeFiles
  intro h
  split at h
  · cases h1 : readFileSync fs P.composeFilePath <;>
      cases h2 : readFileSync fs newFilePath <;>
      simp [h1, h2, bind, Except.bind, pure, Except.pure] at h
    split at h <;> simp at h
  · cases h1 : renameSync fs newFilePath P.composeFilePath <;>
      simp [h1, bind, Except.bind, pure, Except.pure] at h

/-- C15: if the manifest download returns a status other than 200 or a
transport error, `downloadComposeFile` reports `callback(false)`, a
callback `compareComposeFiles` never produces, having touched only the
temporary path: the content at the local manifest path, present or absent,
is the same after the call as before. -/
theorem download_failure_leaves_manifest (sha256 : Bytes → String) (P : Paths)
    (fs : FileSystem Bytes) (hP : P.tempFilePath ≠ P.composeFilePath) :
    (∀ statusCode body, statusCode ≠ 200 →
        downloadComposeFile sha256 P (.response statusCode body) fs
          = .ok (writeFileSync fs P.tempFilePath [], .args1 false)
        ∧ (writeFileSync fs P.tempFilePath []) P.composeFilePath = fs P.composeFilePath)
    ∧ (∀ message,
        downloadComposeFile sha256 P (.error message) fs
          = .ok (unlink (writeFileSync fs P.tempFilePath []) P.tempFilePath, .args1 false)
        ∧ (unlink (writeFileSync fs P.tempFilePath []) P.tempFilePath) P.composeFilePath
            = fs P.composeFilePath)
    ∧ (∀ newFilePath fs0 fs1 b,
        compareComposeFiles sha256 P newFilePath fs0 ≠ .ok (fs1, .args1 b)) := by
  have hP2 : P.composeFilePath ≠ P.tempFilePath := fun h => hP h.symm
  refine ⟨?_, ?_, fun newFilePath fs0 fs1 b =>
    compareComposeFiles_never_args1 sha256 P newFilePath fs0 fs1 b⟩
  · intro statusCode body hs
    simp [downloadComposeFile, hs, writeFileSync, hP2, pure, Except.pure]
  · intro message
    simp [downloadComposeFile, writeFileSync, unlink, hP2, pure, Except.pure]

/-- Witness for C15 on the sample filesystem with a local manifest. -/
theorem download_failure_leaves_manifest_witness :
    samplePaths.tempFilePath ≠ samplePaths.composeFilePath
    ∧ downloadComposeFile sampleDigest samplePaths (.response 404 []) (sampleManifestFs [1, 2, 3])
        = .ok (writeFileSync (sampleManifestFs [1, 2, 3]) samplePaths.tempFilePath [],
            .args1 false)
    ∧ (writeFileSync (sampleManifestFs [1, 2, 3]) samplePaths.tempFilePath [])
        samplePaths.composeFilePath = some [1, 2, 3] :=
  ⟨by decide,
    ((download_failure_leaves_manifest sampleDigest samplePaths (sampleManifestFs [1, 2, 3])
      (by decide)).1 404 [] (by decide)).1,
    by decide⟩

/-! ## Registrar records -/

/-- The loop leaves every key with an index at or below its start index,
and the keys `SLD` and `TLD`, as they are. -/
theorem fillPayload_below :
    ∀ (rs : List HostRecord) (index : Nat) (p : Payload) (j : Nat), j ≤ index →
      fillPayload index rs p (.hostName j) = p (.hostName j)
      ∧ fillPayload index rs p (.recordType j) = p (.recordType j)
      ∧ fillPayload index rs p (.address j) = p (.address j)
      ∧ fillPayload index rs p (.ttl j) = p (.ttl j)
  | [], _, _, _, _ => ⟨rfl, rfl, rfl, rfl⟩
  | r :: rs, index, p, j, h => by
    have hj : j ≠ index + 1 := by omega
    unfold fillPayload
    obtain ⟨h1, h2, h3, h4⟩ := fillPayload_below rs (index + 1)
      (if jsTruthy r.ttl then
        (((p.set (.hostName (index + 1)) r.name).set (.recordType (index + 1))
          r.recordType).set (.address (index + 1)) r.address).set (.ttl (index + 1))
          (r.ttl.getD "")
      else ((p.set (.hostName (index + 1)) r.name).set (.recordType (index + 1))
          r.recordType).set (.address (index + 1)) r.address) j (by omega)
    simp only [h1, h2, h3, h4]
    split <;> simp [Payload.set, hj]

/-- The loop leaves every key with an index above its last index as it
is. -/
theorem fillPayload_above :
    ∀ (rs : List HostRecord) (index : Nat) (p : Payload) (j : Nat), index + rs.length < j →
      fillPayload index rs p (.hostName j) = p (.hostName j)
      ∧ fillPayload index rs p (.recordType j) = p (.recordType j)
  | [], _, _, _, _ => ⟨rfl, rfl⟩
  | r :: rs, index, p, j, h => by
    have hlen : index + 1 + rs.length < j := by simp only [List.length_cons] at h; omega
    have hj : j ≠ index + 1 := by omega
    unfold fillPayload
    obtain ⟨h1, h2⟩ := fillPayload_above rs (index + 1)
      (if jsTruthy r.ttl then
        (((p.set (.hostName (index + 1)) r.name).set (.recordType (index + 1))
          r.recordType).set (.address (index + 1)) r.address).set (.ttl (index + 1))
          (r.ttl.getD "")
      else ((p.set (.hostName (index + 1)) r.name).set (.recordType (index + 1))
          r.recordType).set (.address (index + 1)) r.address) j hlen
    simp only [h1, h2]
    split <;> simp [Payload.set, hj]

/-- The loop stores the `i`-th record of its list under the index
`index + i + 1`. -/
theorem fillPayload_get :
    ∀ (rs : List HostRecord) (index : Nat) (p : Payload) (i : Nat) (r : HostRecord),
      rs[i]? = some r → (∀ j, index < j → p (.ttl j) = none) →
      fillPayload index rs p (.hostName (index + i + 1)) = some r.name
      ∧ fillPayload index rs p (.recordType (index + i + 1)) = some r.recordType
      ∧ fillPayload index rs p (.address (index + i + 1)) = some r.address
      ∧ fillPayload index rs p (.ttl (index + i + 1))
          = if jsTruthy r.ttl then r.ttl else none
  | [], _, _, _, _, h, _ => by simp at h
  | r0 :: rs, index, p, 0, r, h, hp => by
    have hr : r0 = r := by simpa using h
    subst hr
    unfold fillPayload
    obtain ⟨h1, h2, h3, h4⟩ := fillPayload_below rs (index + 1)
      (if jsTruthy r0.ttl then
        (((p.set (.hostName (index + 1)) r0.name).set (.recordType (index + 1))
          r0.recordType).set (.address (index + 1)) r0.address).set (.ttl (index + 1))
          (r0.ttl.getD "")
      else ((p.set (.hostName (index + 1)) r0.name).set (.recordType (index + 1))
          r0.recordType).set (.address (index + 1)) r0.address) (index + 1) (Nat.le_refl _)
    simp only [Nat.add_zero, h1, h2, h3, h4]
    have hpt := hp (index + 1) (Nat.lt_succ_self _)
    cases ht : r0.ttl with
    | none => simp [jsTruthy, Payload.set, hpt]
    | some t =>
      by_cases he : t = ""
      · simp [jsTruthy, Payload.set, hpt, he]
      · simp [jsTruthy, Payload.set, he]
  | r0 :: rs, index, p, i + 1, r, h, hp => by
    have hr : rs[i]? = some r := by simpa using h
    unfold fillPayload
    have hp2 : ∀ j, index + 1 < j →
        (if jsTruthy r0.ttl then
          (((p.set (.hostName (index + 1)) r0.name).set (.recordType (index + 1))
            r0.recordType).set (.address (index + 1)) r0.address).set (.ttl (index + 1))
            (r0.ttl.getD "")
        else ((p.set (.hostName (index + 1)) r0.name).set (.recordType (index + 1))
            r0.recordType).set (.address (index + 1)) r0.address) (.ttl j) = none := by
      intro j hj
      have hne : j ≠ index + 1 := by omega
      split <;> simp [Payload.set, hne, hp j (by omega)]
    have ih := fillPayload_get rs (index + 1) _ i r hr hp2
    have e : index + (i + 1) + 1 = index + 1 + i + 1 := by omega
    rw [e]
    exact ih

theorem createDNSRecord_payload (d : DomainData) (w : RegistrarWorld) (rs : List HostRecord)
    (type name ip : String)
    (hn : d.isNamecheap = true) (hk : jsTruthy d.apiKey = true)
    (hu : jsTruthy d.username = true) (hc : w.clientIp.isSome = true)
    (hg : w.getHosts = some rs) :
    createDNSRecord d w type name ip = some (setHostsPayload d.fqdn rs type name ip) := by
  unfold createDNSRecord
  cases hci : w.clientIp with
  | none => simp [hci] at hc
  | some c => simp [hn, hk, hu, hg]

/-- What the payload holds under its indexed keys: the existing records
under `1 … n`, the new record under `n + 1`, nothing elsewhere. -/
theorem setHostsPayload_records (fqdn : String) (rs : List HostRecord)
    (type name ip : String) :
    (∀ i r, rs[i]? = some r →
        setHostsPayload fqdn rs type name ip (.hostName (i + 1)) = some r.name
        ∧ setHostsPayload fqdn rs type name ip (.recordType (i + 1)) = some r.recordType
        ∧ setHostsPayload fqdn rs type name ip (.address (i + 1)) = some r.address
        ∧ setHostsPayload fqdn rs type name ip (.ttl (i + 1))
            = if jsTruthy r.ttl then r.ttl else none)
    ∧ (setHostsPayload fqdn rs type name ip (.hostName (rs.length + 1)) = some name
        ∧ setHostsPayload fqdn rs type name ip (.recordType (rs.length + 1)) = some type
        ∧ setHostsPayload fqdn rs type name ip (.address (rs.length + 1)) = some ip
        ∧ setHostsPayload fqdn rs type name ip (.ttl (rs.length + 1)) = some "300")
    ∧ (∀ j, j = 0 ∨ rs.length + 1 < j →
        setHostsPayload fqdn rs type name ip (.hostName j) = none) := by
  have hp : ∀ j, 0 < j →
      Payload.set (Payload.set (fun _ => none) .sld (jsJoin "." (domainParts fqdn).dropLast))
        .tld ((domainParts fqdn).getLast?.getD "") (.ttl j) = none := by
    intro j _
    simp [Payload.set]
  refine ⟨?_, ?_, ?_⟩
  · intro i r hr
    have hr2 : (recordsToSubmit rs type name ip)[i]? = some r := by
      unfold recordsToSubmit
      have hi : i < rs.length := by
        rcases Nat.lt_or_ge i rs.length with h | h
        · exact h
        · rw [List.getElem?_eq_none h] at hr
          cases hr
      rw [List.getElem?_append_left hi]
      exact hr
    have := fillPayload_get _ 0 _ i r hr2 hp
    simpa [setHostsPayload] using this
  · have hr2 : (recordsToSubmit rs type name ip)[rs.length]?
        = some ⟨name, type, ip, some "300"⟩ := by
      unfold recordsToSubmit
      simp
    have := fillPayload_get _ 0 _ rs.length _ hr2 hp
    simpa [setHostsPayload, jsTruthy] using this
  · intro j hj
    unfold setHostsPayload
    rcases hj with h0 | hbig
    · subst h0
      rw [(fillPayload_below _ 0 _ 0 (Nat.le_refl _)).1]
      simp [Payload.set]
    · rw [(fillPayload_above _ 0 _ j (by simp [recordsToSubmit]; omega)).1]
      simp [Payload.set]

/-- C16: for every list of `n` existing host records returned by
`getHosts`, the payload `createDNSRecord` hands to `setHosts` holds, for
each `i` in `1 … n`, `HostName{i}`, `RecordType{i}` and `Address{i}` of the
`i`-th existing record, and `TTL{i}` when the record has a (non-empty)
TTL; the new record is under index `n + 1`, and no other index holds a
record, so the payload has exactly `n + 1` indexed records. -/
theorem setHosts_payload_keeps_existing (d : DomainData) (w : RegistrarWorld)
    (rs : List HostRecord) (type name ip : String)
    (hn : d.isNamecheap = true) (hk : jsTruthy d.apiKey = true)
    (hu : jsTruthy d.username = true) (hc : w.clientIp.isSome = true)
    (hg : w.getHosts = some rs) :
    ∃ p, createDNSRecord d w type name ip = some p
      ∧ (∀ i r, rs[i]? = some r →
          p (.hostName (i + 1)) = some r.name
          ∧ p (.recordType (i + 1)) = some r.recordType
          ∧ p (.address (i + 1)) = some r.address
          ∧ p (.ttl (i + 1)) = if jsTruthy r.ttl then r.ttl else none)
      ∧ (p (.hostName (rs.length + 1)) = some name
          ∧ p (.recordType (rs.length + 1)) = some type
          ∧ p (.address (rs.length + 1)) = some ip
          ∧ p (.ttl (rs.length + 1)) = some "300")
      ∧ (∀ j, (p (.hostName j)).isSome = true ↔ 1 ≤ j ∧ j ≤ rs.length + 1) := by
  obtain ⟨h1, h2, h3⟩ := setHostsPayload_records d.fqdn rs type name ip
  refine ⟨_, createDNSRecord_payload d w rs type name ip hn hk hu hc hg, h1, h2, ?_⟩
  intro j
  constructor
  · intro hs
    by_contra hcon
    have : j = 0 ∨ rs.length + 1 < j := by omega
    rw [h3 j this] at hs
    cases hs
  · rintro ⟨hj1, hj2⟩
    rcases Nat.lt_or_ge (j - 1) rs.length with hlt | hge
    · have hget : rs[j - 1]? = some (rs[j - 1]) := List.getElem?_eq_getElem hlt
      have := (h1 (j - 1) _ hget).1
      rw [Nat.sub_add_cancel hj1] at this
      rw [this]
      rfl
    · have hj : j = rs.length + 1 := by omega
      rw [hj, h2.1]
      rfl

/-- Witness for C16 on the sample host list of two records. -/
theorem setHosts_payload_keeps_existing_witness :
    (sampleDomain.isNamecheap = true ∧ jsTruthy sampleDomain.apiKey = true
      ∧ jsTruthy sampleDomain.username = true ∧ sampleRegistrar.clientIp.isSome = true
      ∧ sampleRegistrar.getHosts = some sampleHosts)
    ∧ ∃ p, createDNSRecord sampleDomain sampleRegistrar "A" "*" "198.51.100.4" = some p
      ∧ (∀ i r, sampleHosts[i]? = some r →
          p (.hostName (i + 1)) = some r.name
          ∧ p (.recordType (i + 1)) = some r.recordType
          ∧ p (.address (i + 1)) = some r.address
          ∧ p (.ttl (i + 1)) = if jsTruthy r.ttl then r.ttl else none)
      ∧ (p (.hostName (sampleHosts.length + 1)) = some "*"
          ∧ p (.recordType (sampleHosts.length + 1)) = some "A"
          ∧ p (.address (sampleHosts.length + 1)) = some "198.51.100.4"
          ∧ p (.ttl (sampleHosts.length + 1)) = some "300")
      ∧ (∀ j, (p (.hostName j)).isSome = true ↔ 1 ≤ j ∧ j ≤ sampleHosts.length + 1) :=
  ⟨by decide, setHosts_payload_keeps_existing sampleDomain sampleRegistrar sampleHosts
    "A" "*" "198.51.100.4" (by decide) (by decide) (by decide) (by decide) rfl⟩

/-- C17 (as stated) fails: when the host list already holds an A record
for the bare domain, the payload holds two records with host name `@` and
type `A`, the old one under index 1 with the old address and the new one
under index 3 with the public address. -/
theorem createDNSRecord_duplicates_counterexample :
    (createDNSRecord sampleDomain sampleRegistrar "A" "@" "198.51.100.4").map
        (fun p => (indicesOf p 3 "@" "A", p (.address 1), p (.address 3)))
      = some ([1, 3], some "203.0.113.7", some "198.51.100.4") := by
  decide

/-- C17 (amended): `createDNSRecord` appends the target record: for every
existing host list the set submitted to `setHosts` holds the target record
(the target host name, type `A`, the given public address) as its last
record, and when the existing list holds no A record for the target host
name, that is the only record of the submitted set with the target host
name and type `A`. -/
theorem createDNSRecord_appends_target (d : DomainData) (w : RegistrarWorld)
    (rs : List HostRecord) (name ip : String)
    (hn : d.isNamecheap = true) (hk : jsTruthy d.apiKey = true)
    (hu : jsTruthy d.username = true) (hc : w.clientIp.isSome = true)
    (hg : w.getHosts = some rs) :
    ∃ p, createDNSRecord d w "A" name ip = some p
      ∧ p (.hostName (rs.length + 1)) = some name
      ∧ p (.recordType (rs.length + 1)) = some "A"
      ∧ p (.address (rs.length + 1)) = some ip
      ∧ ((∀ r ∈ rs, ¬ (r.name = name ∧ r.recordType = "A")) →
          ∀ j, (p (.hostName j) = some name ∧ p (.recordType j) = some "A")
            ↔ j = rs.length + 1) := by
  obtain ⟨h1, h2, h3⟩ := setHostsPayload_records d.fqdn rs "A" name ip
  refine ⟨_, createDNSRecord_payload d w rs "A" name ip hn hk hu hc hg, h2.1, h2.2.1,
    h2.2.2.1, ?_⟩
  intro hfresh j
  constructor
  · rintro ⟨hname, htype⟩
    by_contra hcon
    rcases Nat.lt_or_ge j 1 with hj0 | hj1
    · rw [h3 j (Or.inl (by omega))] at hname
      cases hname
    · rcases Nat.lt_or_ge (rs.length + 1) j with hbig | hle
      · rw [h3 j (Or.inr hbig)] at hname
        cases hname
      · have hlt : j - 1 < rs.length := by omega
        have hget : rs[j - 1]? = some (rs[j - 1]) := List.getElem?_eq_getElem hlt
        obtain ⟨g1, g2, _, _⟩ := h1 (j - 1) _ hget
        rw [Nat.sub_add_cancel hj1] at g1 g2
        rw [g1] at hname
        rw [g2] at htype
        exact hfresh (rs[j - 1]) (List.getElem_mem _) ⟨Option.some.inj hname,
          Option.some.inj htype⟩
  · intro hj
    rw [hj]
    exact ⟨h2.1, h2.2.1⟩

/-- Witness for C17 (amended) on the host list without an A record for the
bare domain. -/
theorem createDNSRecord_appends_target_witness :
    (sampleDomain.isNamecheap = true ∧ jsTruthy sampleDomain.apiKey = true
      ∧ jsTruthy sampleDomain.username = true ∧ sampleOtherRegistrar.clientIp.isSome = true
      ∧ sampleOtherRegistrar.getHosts = some sampleOtherHosts
      ∧ ∀ r ∈ sampleOtherHosts, ¬ (r.name = "@" ∧ r.recordType = "A"))
    ∧ ∃ p, createDNSRecord sampleDomain sampleOtherRegistrar "A" "@" "198.51.100.4" = some p
      ∧ p (.hostName (sampleOtherHosts.length + 1)) = some "@"
      ∧ p (.recordType (sampleOtherHosts.length + 1)) = some "A"
      ∧ p (.address (sampleOtherHosts.length + 1)) = some "198.51.100.4"
      ∧ (∀ j, (p (.hostName j) = some "@" ∧ p (.recordType j) = some "A")
            ↔ j = sampleOtherHosts.length + 1) :=
  ⟨by decide,
    match createDNSRecord_appends_target sampleDomain sampleOtherRegistrar
      sampleOtherHosts "@" "198.51.100.4" (by decide) (by decide) (by decide) (by decide)
      rfl with
    | ⟨p, h1, h2, h3, h4, h5⟩ => ⟨p, h1, h2, h3, h4, h5 (by decide)⟩⟩

/-! ## DNS check -/

/-- A record creation in the check of the bare domain comes right after
the prompt about the bare domain, answered with the first button. -/
theorem checkBareDomain_create (d : DomainData) (w : DnsWorld) (ip type name ip2 : String)
    (h : DnsAction.createDNSRecord type name ip2 ∈ checkBareDomain d w ip) :
    type = "A" ∧ name = "@" ∧ ip2 = ip ∧ w.response d.fqdn = 0
      ∧ (∃ addresses, w.resolve d.fqdn = .resolved addresses ∧ ip ∉ addresses)
      ∧ ∃ title, checkBareDomain d w ip
          = [.resolve d.fqdn, .prompt title d.fqdn, .createDNSRecord type name ip2] := by
  unfold checkBareDomain promptAndCreate at h ⊢
  cases hr : w.resolve d.fqdn with
  | rejected reason => simp [hr] at h
  | resolved addresses =>
    by_cases hc : ip ∈ addresses
    · simp [hr, hc] at h
    · by_cases he : registrarEnabled d = true
      · by_cases ha : w.response d.fqdn = 0
        · simp [hr, hc, he, ha] at h ⊢
          obtain ⟨rfl, rfl, rfl⟩ := h
          simp
        · simp [hr, hc, he, ha] at h
      · simp [hr, hc, he] at h

/-- A record creation in the check of the probe subdomain comes right
after a prompt about the probe subdomain, answered with the first
button. -/
theorem checkProbeSubdomain_create (d : DomainData) (w : DnsWorld) (ip type name ip2 : String)
    (h : DnsAction.createDNSRecord type name ip2 ∈ checkProbeSubdomain d w ip) :
    type = "A" ∧ name = "*" ∧ ip2 = ip ∧ w.response (probeName d) = 0
      ∧ (∀ addresses, w.resolve (probeName d) = .resolved addresses → ip ∉ addresses)
      ∧ ∃ title, checkProbeSubdomain d w ip
          = [.resolve (probeName d), .prompt title (probeName d),
              .createDNSRecord type name ip2] := by
  unfold checkProbeSubdomain promptAndCreate at h ⊢
  by_cases he : registrarEnabled d = true
  · by_cases ha : w.response (probeName d) = 0
    · cases hr : w.resolve (probeName d) with
      | rejected reason =>
        simp [hr, he, ha] at h ⊢
        obtain ⟨rfl, rfl, rfl⟩ := h
        simp
      | resolved addresses =>
        by_cases hc : ip ∈ addresses
        · simp [hr, hc] at h
        · simp [hr, hc, he, ha] at h ⊢
          obtain ⟨rfl, rfl, rfl⟩ := h
          simp [hc]
    · cases hr : w.resolve (probeName d) with
      | rejected reason => simp [hr, he, ha] at h
      | resolved addresses =>
        by_cases hc : ip ∈ addresses
        · simp [hr, hc] at h
        · simp [hr, hc, he, ha] at h
  · cases hr : w.resolve (probeName d) with
    | rejected reason => simp [hr, he] at h
    | resolved addresses =>
      by_cases hc : ip ∈ addresses
      · simp [hr, hc] at h
      · simp [hr, hc, he] at h

/-- C18: with the registrar API enabled and an API key present, a failed
resolution of the bare domain leads to no prompt for the bare domain (the
`catch` block of the first check only logs), while the same failure for
the probe subdomain is followed by the prompt.  On the sample domain where
no name resolves, the only prompt is the one about the probe subdomain. -/
theorem bare_domain_failure_not_prompted :
    registrarEnabled sampleDomain = true
    ∧ checkDNSRecords sampleDomain nothingResolves
        = [.resolve "example.com", .resolve "potato.example.com",
           .prompt "DNS Record Missing" "potato.example.com",
           .createDNSRecord "A" "*" "198.51.100.4"]
    ∧ promptShown (checkDNSRecords sampleDomain nothingResolves) "example.com" = false
    ∧ promptShown (checkDNSRecords sampleDomain nothingResolves) "potato.example.com" = true
    ∧ (∀ (d : DomainData) (publicIp : Option String) (reason : String) (response : String → Nat)
        (ip : String),
        checkBareDomain d ⟨publicIp, fun _ => .rejected reason, response⟩ ip
          = [.resolve d.fqdn]) := by
  refine ⟨by decide, by decide, by decide, by decide, ?_⟩
  intro d publicIp reason response ip
  rfl

/-- C19: in `checkDNSRecords` every call of `createDNSRecord` is for type
`A` and for `@` or `*`, and comes right after the prompt about the checked
name (the bare domain for `@`, the probe subdomain for `*`), answered with
the first button; an answer other than the first button for a name, or a
resolution of the name that includes the public address, leads to no
`createDNSRecord` call for that name.  On the sample domain where both
names resolve to another address and the operator answers `Yes` for the
bare domain and `No` for the probe subdomain, only the record for `@` is
created. -/
theorem dns_record_created_only_on_consent (d : DomainData) (w : DnsWorld) :
    (∀ type name ip, DnsAction.createDNSRecord type name ip ∈ checkDNSRecords d w →
        type = "A" ∧ ∃ title hostname pre post,
          checkDNSRecords d w
            = pre ++ .prompt title hostname :: .createDNSRecord type name ip :: post
          ∧ w.response hostname = 0
          ∧ ((name = "@" ∧ hostname = d.fqdn) ∨ (name = "*" ∧ hostname = probeName d)))
    ∧ (w.response d.fqdn ≠ 0 →
        ∀ type ip, DnsAction.createDNSRecord type "@" ip ∉ checkDNSRecords d w)
    ∧ (w.response (probeName d) ≠ 0 →
        ∀ type ip, DnsAction.createDNSRecord type "*" ip ∉ checkDNSRecords d w)
    ∧ (∀ publicIp addresses, w.publicIp = some publicIp →
        w.resolve d.fqdn = .resolved addresses → publicIp ∈ addresses →
        ∀ type ip, DnsAction.createDNSRecord type "@" ip ∉ checkDNSRecords d w)
    ∧ (∀ publicIp addresses, w.publicIp = some publicIp →
        w.resolve (probeName d) = .resolved addresses → publicIp ∈ addresses →
        ∀ type ip, DnsAction.createDNSRecord type "*" ip ∉ checkDNSRecords d w)
    ∧ checkDNSRecords sampleDomain bothMismatch
        = [.resolve "example.com", .prompt "DNS Record Mismatch" "example.com",
           .createDNSRecord "A" "@" "198.51.100.4", .resolve "potato.example.com",
           .prompt "DNS Record Mismatch" "potato.example.com"] := by
  have key : ∀ type name ip, DnsAction.createDNSRecord type name ip ∈ checkDNSRecords d w →
      ∃ pip, w.publicIp = some pip ∧
        ((DnsAction.createDNSRecord type name ip ∈ checkBareDomain d w pip)
          ∨ (DnsAction.createDNSRecord type name ip ∈ checkProbeSubdomain d w pip)) := by
    intro type name ip h
    unfold checkDNSRecords at h
    cases hp : w.publicIp with
    | none => simp [hp] at h
    | some pip =>
      simp only [hp] at h
      exact ⟨pip, rfl, List.mem_append.mp h⟩
  refine ⟨?_, ?_, ?_, ?_, ?_, by decide⟩
  · intro type name ip h
    obtain ⟨pip, hp, hb | hs⟩ := key type name ip h
    · obtain ⟨h1, h2, _, h4, _, title, h6⟩ := checkBareDomain_create d w pip type name ip hb
      refine ⟨h1, title, d.fqdn, [.resolve d.fqdn], checkProbeSubdomain d w pip, ?_, h4,
        Or.inl ⟨h2, rfl⟩⟩
      simp [checkDNSRecords, hp, h6]
    · obtain ⟨h1, h2, _, h4, _, title, h6⟩ :=
        checkProbeSubdomain_create d w pip type name ip hs
      refine ⟨h1, title, probeName d, checkBareDomain d w pip ++ [.resolve (probeName d)], [],
        ?_, h4, Or.inr ⟨h2, rfl⟩⟩
      simp [checkDNSRecords, hp, h6]
  · intro hno type ip h
    obtain ⟨pip, hp, hb | hs⟩ := key type "@" ip h
    · exact hno (checkBareDomain_create d w pip type "@" ip hb).2.2.2.1
    · have := (checkProbeSubdomain_create d w pip type "@" ip hs).2.1
      exact absurd this (by decide)
  · intro hno type ip h
    obtain ⟨pip, hp, hb | hs⟩ := key type "*" ip h
    · have := (checkBareDomain_create d w pip type "*" ip hb).2.1
      exact absurd this (by decide)
    · exact hno (checkProbeSubdomain_create d w pip type "*" ip hs).2.2.2.1
  · intro publicIp addresses hpi hres hin type ip h
    obtain ⟨pip, hp, hb | hs⟩ := key type "@" ip h
    · obtain ⟨_, _, _, _, ⟨addrs, ha1, ha2⟩, _⟩ := checkBareDomain_create d w pip type "@" ip hb
      rw [hpi] at hp
      cases hp
      rw [hres] at ha1
      cases ha1
      exact ha2 hin
    · have := (checkProbeSubdomain_create d w pip type "@" ip hs).2.1
      exact absurd this (by decide)
  · intro publicIp addresses hpi hres hin type ip h
    obtain ⟨pip, hp, hb | hs⟩ := key type "*" ip h
    · have := (checkBareDomain_create d w pip type "*" ip hb).2.1
      exact absurd this (by decide)
    · have h5 := (checkProbeSubdomain_create d w pip type "*" ip hs).2.2.2.2.1
      rw [hpi] at hp
      cases hp
      exact h5 addresses hres hin

/-! ## Port forwarding -/

/-- C20: the array handed to the caller of `checkAndForwardUPnP` is empty
at the moment the caller inspects it, for every assignment of results to
the mapping requests, so the manual-forwarding advisory is never issued;
the ports that failed are pushed to the array only afterwards.  When the
router refuses the mapping of port 80, the caller sees no failed port
although port 80 ends up in the array. -/
theorem upnp_failures_not_seen_by_caller :
    (∀ result, (checkAndForwardUPnP result).atCallback = []
        ∧ manualForwardingAdvisory (checkAndForwardUPnP result) = none)
    ∧ (checkAndForwardUPnP routerRefuses80).requested = [80, 443]
    ∧ (checkAndForwardUPnP routerRefuses80).afterAnswers = [80]
    ∧ (checkAndForwardUPnP routerRefuses80).atCallback = [] := by
  refine ⟨fun result => ⟨rfl, rfl⟩, by decide, by decide, by decide⟩

/-! ## Service group start and stop -/

/-- C21: when the stop of the service group fails inside the `'save-env'`
handler, the message sent to the event sink is the fixed text
`Failed to stop Docker Compose.` and does not include the captured stderr
text, although `stopDockerCompose` calls back with `(false, stderr)`.  The
`'start-gateway'` and `'stop-gateway'` handlers, and the start failure in
`'save-env'`, do append the stderr text. -/
theorem save_env_stop_failure_drops_stderr :
    stopDockerCompose composeFails = (false, "network ar-io-network has active endpoints")
    ∧ saveEnvHandler composeFails composeSucceeds
        = [⟨"docker-logs", "Environment variables updated. Restarting Docker containers..."⟩,
           ⟨"docker-logs", "Failed to stop Docker Compose."⟩]
    ∧ (saveEnvHandler composeFails composeSucceeds).all
        (fun e => !jsIncludes e.payload composeFails.stderr) = true
    ∧ (∀ message out err,
        startDockerCompose ⟨some message, out, err⟩ = (false, err)
        ∧ stopDockerCompose ⟨some message, out, err⟩ = (false, err)
        ∧ startGatewayHandler ⟨some message, out, err⟩
            = [⟨"docker-logs", "Failed to start Docker Compose: " ++ err⟩]
        ∧ stopGatewayHandler ⟨some message, out, err⟩
            = [⟨"docker-logs", "Failed to stop Docker Compose: " ++ err⟩]
        ∧ saveEnvHandler composeSucceeds ⟨some message, out, err⟩
            = [⟨"docker-logs", "Environment variables updated. Restarting Docker containers..."⟩,
               ⟨"docker-logs", "Failed to start Docker Compose: " ++ err⟩]) := by
  refine ⟨by decide, by decide, by decide, fun message out err => ⟨rfl, rfl, rfl, rfl, rfl⟩⟩

/-! ## Domain configuration file -/

/-- C22 (as stated) fails: for domain data with the registrar flag set and
no API key, the persisted record has `isNamecheap` true and no `apiKey`. -/
theorem saveDomainData_flag_without_key_counterexample :
    (saveDomainData sampleDomainFilePath true domainWithoutKey (fun _ => none)).1
        sampleDomainFilePath
      = some (.json [("fqdn", .str "example.com"), ("isNamecheap", .bool true)])
    ∧ hasApiKey (domainConfig domainWithoutKey) = false
    ∧ (domainConfig domainWithoutKey).get "isNamecheap" = some (.bool true) := by
  decide

/-- C22 (amended): for every domain data passed to `saveDomainData`, the
persisted record has an `apiKey` present (non-null) if and only if its
registrar flag `isNamecheap` is true and the domain data carries an API
key; with the flag false the persisted `apiKey` is `null`, and with the
flag true it is the API key of the domain data. -/
theorem saveDomainData_apiKey (domainFilePath : String) (d : DomainData)
    (fs : FileSystem DomainFile) :
    (saveDomainData domainFilePath true d fs).1 domainFilePath = some (.json (domainConfig d))
    ∧ (domainConfig d).get "isNamecheap" = some (.bool d.isNamecheap)
    ∧ (hasApiKey (domainConfig d) = true ↔ (d.isNamecheap = true ∧ d.apiKey.isSome = true))
    ∧ (domainConfig d).get "apiKey"
        = if d.isNamecheap then d.apiKey.map Json.str else some .null := by
  refine ⟨by simp [saveDomainData, writeFileSync], by simp [domainConfig, JsonObject.get], ?_, ?_⟩
  · cases hn : d.isNamecheap <;> cases hk : d.apiKey <;>
      simp [domainConfig, hasApiKey, JsonObject.get, hn, hk]
  · cases hn : d.isNamecheap <;> cases hk : d.apiKey <;>
      simp [domainConfig, JsonObject.get, hn, hk]

/-! ## Installation flag -/

/-- C24: a tick with the flag set starts nothing, but the flag is not set
during an installation started by the `'install-docker'` command: after
that command, with the installation still running, the flag is false and
the tick starts the container check.  The flag also drops while an
installation started by the command is running when the startup
installation calls back. -/
theorem install_command_does_not_set_flag :
    (∀ s, s.isInstallingDocker = true → (mainStep s .tick).2 = [])
    ∧ mainRun mainStart [.consentYes, .tick]
        = (⟨true, [.startup]⟩, [.installDocker .startup])
    ∧ mainRun mainStart [.installDockerCommand, .tick]
        = (⟨false, [.command]⟩, [.installDocker .command, .checkDockerContainers])
    ∧ mainRun mainStart [.consentYes, .installDockerCommand, .installCallback .startup, .tick]
        = (⟨false, [.command]⟩,
            [.installDocker .startup, .installDocker .command, .checkDockerContainers]) := by
  refine ⟨?_, by decide, by decide, by decide⟩
  intro s hs
  simp [mainStep, hs]

/-! ## Firewall rules -/

/-- C25: the test for an existing rule searches the rule listing for the
text `LocalPort=port`.  On a listing in the layout `netsh` prints, with a
rule that allows local port 80, nothing matches and the add command is
issued for port 80 although a rule covers it; on a listing in the layout
the search text expects, whose only rule is for local port 8080, the line
`LocalPort=8080` matches the search for port 80 and no rule is added for
port 80.  A failure of the add command is only logged, and the callback
has been invoked before any result arrives. -/
theorem firewall_rule_test_misses :
    (checkPortsInFirewall netshListingPort80 (fun _ => true)).afterCallback 80
        = [.addRule 80, .log "Port 80 has been allowed in the firewall."]
    ∧ (checkPortsInFirewall keyValueListingPort8080 (fun _ => true)).afterCallback 80
        = [.log "Port 80 is already open in the firewall."]
    ∧ (checkPortsInFirewall keyValueListingPort8080 (fun _ => false)).afterCallback 443
        = [.addRule 443, .log "Failed to open port 443 in the firewall"]
    ∧ (∀ listing addOk,
        (checkPortsInFirewall listing addOk).beforeCallback = [.showRule 80, .showRule 443]) := by
  refine ⟨by decide, by decide, by decide, fun listing addOk => rfl⟩

/-! ## Runtime check, late probe -/

/-- C27: when the version probe completes after the 10 s timer has fired,
`checkDockerInstalled` invokes its callback twice: once from the timer with
`Docker check timed out.` and once more from the continuation of the
probe.  This holds for every outcome of the probes. -/
theorem checkDockerInstalled_calls_back_twice :
    (checkDockerInstalled lateProbes).1
        = [("Docker check timed out.", false), ("Docker is installed and running.", true)]
    ∧ (∀ (late : Nat) (versionOk : Bool) (info start : Nat → Bool),
        (checkDockerInstalled ⟨some (10000 + late), versionOk, info, start⟩).1.length = 2) := by
  refine ⟨by decide, ?_⟩
  intro late versionOk info start
  simp [checkDockerInstalled]

/-! ## Propagation loop of the auth-hook script -/

/-- The loop from attempt `a` on, when the first match from `a` on is at
attempt `k`: it breaks at attempt `k` after `k - a + 1` polls, the last
action being the poll of attempt `k`. -/
theorem propagationLoopOver_match (txt : Nat → String) (validation : String) (k : Nat)
    (hk : txt k = validation) (hk20 : k ≤ 20) :
    ∀ (n a : Nat), a + n = 21 → a ≤ k → (∀ j, a ≤ j → j < k → txt j ≠ validation) →
      (propagationLoopOver txt validation (List.range' a n)).2 = .completed
      ∧ pollCount (propagationLoopOver txt validation (List.range' a n)).1 = k + 1 - a
      ∧ (propagationLoopOver txt validation (List.range' a n)).1.getLast? = some (.dig k)
  | 0, a, h, hak, _ => by omega
  | n + 1, a, h, hak, hno => by
    rw [List.range'_succ]
    unfold propagationLoopOver
    by_cases ha : txt a = validation
    · have hka : k = a := by
        by_contra hne
        exact hno a (Nat.le_refl _) (by omega) ha
      subst hka
      simp [ha, pollCount]
    · have hak2 : a + 1 ≤ k := by
        rcases Nat.lt_or_ge a k with h1 | h1
        · exact h1
        · have : a = k := by omega
          rw [this] at ha
          exact absurd hk ha
      have ha20 : a ≠ 20 := by omega
      obtain ⟨h1, h2, h3⟩ := propagationLoopOver_match txt validation k hk hk20 n (a + 1)
        (by omega) hak2 (fun j hj1 hj2 => hno j (by omega) hj2)
      simp only [ha, ha20, if_false]
      refine ⟨h1, ?_, ?_⟩
      · have : pollCount (LoopAction.dig a :: LoopAction.sleep30 ::
            (propagationLoopOver txt validation (List.range' (a + 1) n)).1)
            = pollCount (propagationLoopOver txt validation (List.range' (a + 1) n)).1 + 1 := by
          simp [pollCount, List.filter_cons]
        rw [this, h2]
        omega
      · cases hl : (propagationLoopOver txt validation (List.range' (a + 1) n)).1 with
        | nil => simp [hl] at h3
        | cons x xs =>
          rw [hl] at h3
          simp only [List.getLast?_cons_cons]
          exact h3

/-- The loop from attempt `a` on, when no attempt from `a` to 20 matches:
it ends in `exit 1` after one poll per attempt. -/
theorem propagationLoopOver_no_match (txt : Nat → String) (validation : String) :
    ∀ (n a : Nat), a + n = 21 → 1 ≤ n → (∀ j, a ≤ j → j ≤ 20 → txt j ≠ validation) →
      (propagationLoopOver txt validation (List.range' a n)).2 = .exit1
      ∧ pollCount (propagationLoopOver txt validation (List.range' a n)).1 = n
  | 0, _, _, hn, _ => by omega
  | n + 1, a, h, _, hno => by
    rw [List.range'_succ]
    unfold propagationLoopOver
    have ha : txt a ≠ validation := hno a (Nat.le_refl _) (by omega)
    by_cases ha20 : a = 20
    · have hn0 : n = 0 := by omega
      subst hn0
      subst ha20
      simp [ha, pollCount]
    · obtain ⟨h1, h2⟩ := propagationLoopOver_no_match txt validation n (a + 1) (by omega)
        (by omega) (fun j hj1 hj2 => hno j (by omega) hj2)
      simp only [ha, ha20, if_false]
      refine ⟨h1, ?_⟩
      have : pollCount (LoopAction.dig a :: LoopAction.sleep30 ::
          (propagationLoopOver txt validation (List.range' (a + 1) n)).1)
          = pollCount (propagationLoopOver txt validation (List.range' (a + 1) n)).1 + 1 := by
        simp [pollCount, List.filter_cons]
      rw [this, h2]

/-- C23: the propagation loop of the auth-hook script is a bounded retry.
If the polled TXT value first equals the validation value on attempt `k`,
`1 ≤ k ≤ 20`, the loop is left by `break` at attempt `k` after exactly `k`
polls, the poll of attempt `k` being its last action; if the value matches
on no attempt from 1 to 20, the script ends with `exit 1` after exactly 20
polls. -/
theorem propagation_loop_bounded (txt : Nat → String) (validation : String) :
    (∀ k, 1 ≤ k → k ≤ 20 → txt k = validation →
        (∀ j, 1 ≤ j → j < k → txt j ≠ validation) →
        (propagationLoop txt validation).2 = .completed
        ∧ pollCount (propagationLoop txt validation).1 = k
        ∧ (propagationLoop txt validation).1.getLast? = some (.dig k))
    ∧ ((∀ j, 1 ≤ j → j ≤ 20 → txt j ≠ validation) →
        (propagationLoop txt validation).2 = .exit1
        ∧ pollCount (propagationLoop txt validation).1 = 20) := by
  constructor
  · intro k hk1 hk20 hk hno
    obtain ⟨h1, h2, h3⟩ := propagationLoopOver_match txt validation k hk hk20 20 1 rfl hk1 hno
    exact ⟨h1, by rw [propagationLoop, h2]; omega, h3⟩
  · intro hno
    exact propagationLoopOver_no_match txt validation 20 1 rfl (by omega) hno

/-- Witness for C23: a TXT value that is right from attempt 3 on, and one
that is never right. -/
theorem propagation_loop_bounded_witness :
    ((1 ≤ 3 ∧ 3 ≤ 20 ∧ txtFromThird 3 = "token"
        ∧ ∀ j, 1 ≤ j → j < 3 → txtFromThird j ≠ "token")
      ∧ (propagationLoop txtFromThird "token").2 = .completed
      ∧ pollCount (propagationLoop txtFromThird "token").1 = 3
      ∧ (propagationLoop txtFromThird "token").1.getLast? = some (.dig 3))
    ∧ ((∀ j, 1 ≤ j → j ≤ 20 → (fun _ => "") j ≠ "token")
      ∧ (propagationLoop (fun _ => "") "token").2 = .exit1
      ∧ pollCount (propagationLoop (fun _ => "") "token").1 = 20) :=
  have h3 : ∀ j, 1 ≤ j → j < 3 → txtFromThird j ≠ "token" := by
    intro j h1 h2
    have : j = 1 ∨ j = 2 := by omega
    rcases this with rfl | rfl <;> decide
  have hn : ∀ j, 1 ≤ j → j ≤ 20 → (fun _ : Nat => "") j ≠ "token" := by
    intro j _ _
    show "" ≠ "token"
    decide
  ⟨⟨⟨by decide, by decide, by decide, h3⟩,
      (propagation_loop_bounded txtFromThird "token").1 3 (by decide) (by decide)
        (by decide) h3⟩,
    ⟨hn, (propagation_loop_bounded (fun _ => "") "token").2 hn⟩⟩

/-! ## DNS check, independence of the two names -/

theorem probeName_ne_fqdn (d : DomainData) : probeName d ≠ d.fqdn := by
  intro h
  have hl := congrArg String.length h
  unfold probeName at hl
  rw [String.length_append] at hl
  have h7 : "potato.".length = 7 := by decide
  omega

/-- C26: once the public address has been obtained, `checkDNSRecords` runs
the check of the bare domain and then the check of the probe subdomain:
the resolution of the probe subdomain is attempted for every outcome of
the bare-domain check (a rejected resolution, which covers the resolver
error and the timeout, any operator answer, and a record creation, whose
errors `createDNSRecord` catches itself), and what the probe check does
does not depend on that outcome. -/
theorem probe_subdomain_always_checked (d : DomainData) (w : DnsWorld) (ip : String)
    (hip : w.publicIp = some ip) :
    checkDNSRecords d w = checkBareDomain d w ip ++ checkProbeSubdomain d w ip
    ∧ DnsAction.resolve (probeName d) ∈ checkDNSRecords d w
    ∧ (∀ bareAnswer bareResponse,
        checkProbeSubdomain d ⟨w.publicIp, Function.update w.resolve d.fqdn bareAnswer,
          Function.update w.response d.fqdn bareResponse⟩ ip = checkProbeSubdomain d w ip)
    ∧ (∀ bareAnswer bareResponse,
        DnsAction.resolve (probeName d) ∈ checkDNSRecords d
          ⟨w.publicIp, Function.update w.resolve d.fqdn bareAnswer,
            Function.update w.response d.fqdn bareResponse⟩) := by
  have hne := probeName_ne_fqdn d
  have hmem : ∀ w2 : DnsWorld, DnsAction.resolve (probeName d) ∈ checkProbeSubdomain d w2 ip := by
    intro w2
    unfold checkProbeSubdomain
    exact List.mem_cons_self _ _
  refine ⟨by simp [checkDNSRecords, hip], ?_, ?_, ?_⟩
  · simp only [checkDNSRecords, hip]
    exact List.mem_append_right _ (hmem w)
  · intro bareAnswer bareResponse
    simp [checkProbeSubdomain, promptAndCreate, Function.update, hne]
  · intro bareAnswer bareResponse
    simp only [checkDNSRecords, hip]
    exact List.mem_append_right _ (hmem _)

/-- Witness for C26 on the sample domain when no name resolves. -/
theorem probe_subdomain_always_checked_witness :
    nothingResolves.publicIp = some "198.51.100.4"
    ∧ (checkDNSRecords sampleDomain nothingResolves
          = checkBareDomain sampleDomain nothingResolves "198.51.100.4"
            ++ checkProbeSubdomain sampleDomain nothingResolves "198.51.100.4"
      ∧ DnsAction.resolve (probeName sampleDomain) ∈ checkDNSRecords sampleDomain nothingResolves
      ∧ (∀ bareAnswer bareResponse,
          checkProbeSubdomain sampleDomain ⟨nothingResolves.publicIp,
            Function.update nothingResolves.resolve sampleDomain.fqdn bareAnswer,
            Function.update nothingResolves.response sampleDomain.fqdn bareResponse⟩
            "198.51.100.4" = checkProbeSubdomain sampleDomain nothingResolves "198.51.100.4")
      ∧ (∀ bareAnswer bareResponse,
          DnsAction.resolve (probeName sampleDomain) ∈ checkDNSRecords sampleDomain
            ⟨nothingResolves.publicIp,
              Function.update nothingResolves.resolve sampleDomain.fqdn bareAnswer,
              Function.update nothingResolves.response sampleDomain.fqdn bareResponse⟩)) :=
  ⟨rfl, probe_subdomain_always_checked sampleDomain nothingResolves "198.51.100.4" rfl⟩

/-! ## Domain configuration round trip -/

/-- C29 (as stated) fails: the domain data carries a user name, which
`createDNSRecord` requires, and the loaded record has none; and an API key
carried with the registrar flag off comes back as `null`. -/
theorem domain_round_trip_counterexample :
    sampleDomain.username = some "operator"
    ∧ (loadDomainData sampleDomainFilePath true
        (saveDomainData sampleDomainFilePath true sampleDomain (fun _ => none)).1).map
        (fun o => (o.get "username", o.get "apiKey"))
      = some (none, some (.str "api-key"))
    ∧ (loadDomainData sampleDomainFilePath true
        (saveDomainData sampleDomainFilePath true
          ⟨"example.com", false, some "api-key", some "operator"⟩ (fun _ => none)).1).map
        (fun o => (o.get "username", o.get "apiKey"))
      = some (none, some .null) := by
  decide

/-- C29 (amended): for every domain data `d` that `saveDomainData` persists
successfully, a following `loadDomainData` that reads the file delivers a
record whose `fqdn` and `isNamecheap` equal those of `d` and whose `apiKey`
equals `d.apiKey` when `d.isNamecheap` is true and is `null` otherwise; of
the fields `createDNSRecord` requires, `fqdn` and `isNamecheap` are present
in the loaded record, and `apiKey` is present (non-null) exactly when
`d.isNamecheap` is true and `d` carries an API key. -/
theorem domain_round_trip (domainFilePath : String) (d : DomainData)
    (fs : FileSystem DomainFile) :
    (saveDomainData domainFilePath true d fs).2 = true
    ∧ ∃ o, loadDomainData domainFilePath true (saveDomainData domainFilePath true d fs).1 = some o
      ∧ o.get "fqdn" = some (.str d.fqdn)
      ∧ o.get "isNamecheap" = some (.bool d.isNamecheap)
      ∧ o.get "apiKey" = (if d.isNamecheap then d.apiKey.map Json.str else some .null)
      ∧ hasApiKey o = (d.isNamecheap && d.apiKey.isSome) := by
  refine ⟨by simp [saveDomainData], domainConfig d, ?_, ?_, ?_, ?_, ?_⟩
  · simp [loadDomainData, saveDomainData, existsSync, writeFileSync]
  · simp [domainConfig, JsonObject.get]
  · simp [domainConfig, JsonObject.get]
  · cases hn : d.isNamecheap <;> cases hk : d.apiKey <;>
      simp [domainConfig, JsonObject.get, hn, hk]
  · cases hn : d.isNamecheap <;> cases hk : d.apiKey <;>
      simp [domainConfig, hasApiKey, JsonObject.get, hn, hk]

/-! ## Listing format -/

theorem splitColonSpace_join (l : List Char) :
    splitColonSpace l ≠ [] ∧ joinColonSpace (splitColonSpace l) = l := by
  induction l using splitColonSpace.induct with
  | case1 => simp [splitColonSpace, joinColonSpace]
  | case2 rest ih =>
    obtain ⟨h1, h2⟩ := ih
    rw [splitColonSpace]
    refine ⟨by simp, ?_⟩
    cases hs : splitColonSpace rest with
    | nil => exact absurd hs h1
    | cons p ps =>
      rw [hs] at h2
      simp [joinColonSpace, h2]
  | case3 c cs hne hnil ih =>
    obtain ⟨h1, _⟩ := ih
    exact absurd hnil h1
  | case4 c cs hne p ps hs ih =>
    obtain ⟨_, h2⟩ := ih
    rw [splitColonSpace]
    · rw [hs] at h2 ⊢
      refine ⟨by simp, ?_⟩
      cases ps with
      | nil => simpa [joinColonSpace] using h2
      | cons q qs => simpa [joinColonSpace] using h2
    · exact hne

theorem linesOfChars_ne_nil : ∀ t : List Char, linesOfChars t ≠ []
  | [] => by simp [linesOfChars]
  | c :: cs => by
    have ih := linesOfChars_ne_nil cs
    unfold linesOfChars
    split
    · simp
    · cases hs : linesOfChars cs with
      | nil => exact absurd hs ih
      | cons l ls => simp

theorem jsJoin_cons_data (x : String) (rest : List String) (h : rest ≠ []) :
    (jsJoin "\n" (x :: rest)).data = x.data ++ '\n' :: (jsJoin "\n" rest).data := by
  cases rest with
  | nil => exact absurd rfl h
  | cons y ys => simp [jsJoin, String.data_append]

/-- Joining the lines of a text with line feeds gives the text back. -/
theorem jsJoin_linesOfChars : ∀ t : List Char,
    (jsJoin "\n" ((linesOfChars t).map String.mk)).data = t
  | [] => by simp [linesOfChars, jsJoin]
  | c :: cs => by
    have ih := jsJoin_linesOfChars cs
    have hne := linesOfChars_ne_nil cs
    unfold linesOfChars
    by_cases hc : c = '\n'
    · simp only [hc, if_true, List.map_cons]
      rw [jsJoin_cons_data _ _ (by simpa using hne), ih]
      rfl
    · simp only [hc, if_false]
      cases hs : linesOfChars cs with
      | nil => exact absurd hs hne
      | cons l ls =>
        rw [hs] at ih
        simp only [List.map_cons] at ih ⊢
        cases ls with
        | nil =>
          simp only [List.map_nil, jsJoin] at ih ⊢
          simp [ih]
        | cons q qs =>
          rw [jsJoin_cons_data _ _ (by simp)] at ih ⊢
          simp only [List.map_cons] at ih
          simp [← ih]

theorem parseLine_of_two (l name status : List Char) (h : splitColonSpace l = [name, status]) :
    parseLine l = ⟨⟨name⟩, some ⟨status⟩⟩ ∧ l = name ++ ':' :: ' ' :: status
      ∧ containerLine (parseLine l) = ⟨l⟩ := by
  have hj := (splitColonSpace_join l).2
  rw [h] at hj
  have hl : l = name ++ ':' :: ' ' :: status := by simpa [joinColonSpace] using hj.symm
  refine ⟨by simp [parseLine, h], hl, ?_⟩
  simp only [parseLine, h, containerLine, Option.getD_some]
  apply String.ext
  simp [String.data_append, hl]

theorem two_pieces {l : List Char} (h : (splitColonSpace l).length = 2) :
    ∃ name status, splitColonSpace l = [name, status] := by
  cases hs : splitColonSpace l with
  | nil => simp [hs] at h
  | cons a rest =>
    cases rest with
    | nil => simp [hs] at h
    | cons b rest2 =>
      cases rest2 with
      | nil => exact ⟨a, b, rfl⟩
      | cons c rest3 => simp [hs] at h

/-- C28 (as stated) fails: in a listing with an empty line between two
containers, every non-empty line contains the delimiter exactly once, and
re-formatting the records gives the listing without the empty line, which
is not the trimmed listing. -/
theorem listing_round_trip_counterexample :
    (listingLines listingWithBlankLine).all (fun l => (splitColonSpace l).length == 2) = true
    ∧ formatContainers (parseContainers listingWithBlankLine)
        = "core: Up 2 hours\nenvoy: Up 2 hours"
    ∧ String.mk (trimChars listingWithBlankLine.data) = "core: Up 2 hours\n\nenvoy: Up 2 hours" := by
  decide

/-- C28 (amended): for every listing output whose non-empty lines each
contain the delimiter `: ` exactly once, `checkDockerContainers` yields
one record per non-empty line of the trimmed listing, in the same order,
with `name` the text before the delimiter and `status` the text after it,
and re-formatting the records as `name: status` joined by line feeds gives
back the non-empty lines of the trimmed listing joined by line feeds, which
is the trimmed listing itself when it has no empty line. -/
theorem listing_round_trip (containerStdout : String)
    (h : ∀ l ∈ listingLines containerStdout, (splitColonSpace l).length = 2) :
    (parseContainers containerStdout).length = (listingLines containerStdout).length
    ∧ (∀ (i : Nat) (l : List Char), (listingLines containerStdout)[i]? = some l →
        ∃ name status, splitColonSpace l = [name, status]
          ∧ l = name ++ ':' :: ' ' :: status
          ∧ (parseContainers containerStdout)[i]?
              = some (Container.mk (String.mk name) (some (String.mk status))))
    ∧ formatContainers (parseContainers containerStdout)
        = jsJoin "\n" ((listingLines containerStdout).map String.mk)
    ∧ ((∀ l ∈ linesOfChars (trimChars containerStdout.data), l ≠ []) →
        formatContainers (parseContainers containerStdout)
          = ⟨trimChars containerStdout.data⟩) := by
  have hparse : parseContainers containerStdout
      = (listingLines containerStdout).map parseLine := rfl
  have hfmt : formatContainers (parseContainers containerStdout)
      = jsJoin "\n" ((listingLines containerStdout).map String.mk) := by
    unfold formatContainers
    rw [hparse, List.map_map]
    congr 1
    apply List.map_congr_left
    intro l hl
    obtain ⟨name, status, hs⟩ := two_pieces (h l hl)
    exact (parseLine_of_two l name status hs).2.2
  refine ⟨by rw [hparse, List.length_map], ?_, hfmt, ?_⟩
  · intro i l hl
    have hmem : l ∈ listingLines containerStdout := List.getElem?_mem hl
    obtain ⟨name, status, hs⟩ := two_pieces (h l hmem)
    obtain ⟨h1, h2, _⟩ := parseLine_of_two l name status hs
    refine ⟨name, status, hs, h2, ?_⟩
    rw [hparse, List.getElem?_map, hl, Option.map_some', h1]
  · intro hne
    have hall : listingLines containerStdout = linesOfChars (trimChars containerStdout.data) := by
      unfold listingLines
      apply List.filter_eq_self.mpr
      intro l hl
      have := hne l hl
      cases l with
      | nil => exact absurd rfl this
      | cons c cs => rfl
    rw [hfmt, hall]
    apply String.ext
    exact jsJoin_linesOfChars _

/-- Witness for C28 (amended) on a listing of two containers. -/
theorem listing_round_trip_witness :
    (∀ l ∈ listingLines listingOfTwo, (splitColonSpace l).length = 2)
    ∧ ((parseContainers listingOfTwo).length = (listingLines listingOfTwo).length
      ∧ (∀ (i : Nat) (l : List Char), (listingLines listingOfTwo)[i]? = some l →
          ∃ name status, splitColonSpace l = [name, status]
            ∧ l = name ++ ':' :: ' ' :: status
            ∧ (parseContainers listingOfTwo)[i]?
                = some (Container.mk (String.mk name) (some (String.mk status))))
      ∧ formatContainers (parseContainers listingOfTwo)
          = jsJoin "\n" ((listingLines listingOfTwo).map String.mk)
      ∧ ((∀ l ∈ linesOfChars (trimChars listingOfTwo.data), l ≠ []) →
          formatContainers (parseContainers listingOfTwo)
            = ⟨trimChars listingOfTwo.data⟩)) :=
  ⟨by decide, listing_round_trip listingOfTwo (by decide)⟩

end GatewayExe
